import Mathlib

/-!
# jstat_exporter: parsing of jstat reports into gauges

A shallow embedding of `jstat_exporter.go`.  The exporter runs the external
tool `jstat` in four report modes, takes the second line of each report,
splits it on white space and stores selected positional fields in gauges,
sending every gauge to the collection channel right after it is set.

Modelling decisions.

* Go strings are lists of characters (`List Char`), i.e. the text of the
  command output after decoding.
* `float64` is an abstract type `V`; `strconv.ParseFloat` and the external
  command are given by an environment `Env V`, so every theorem holds for
  whatever these two do.
* `stdlog.Fatal` (which calls `os.Exit(1)`) and the run-time panic of an index
  out of range both end the process; a routine therefore produces a `Step`
  that records how it ended together with the state reached at that point.
* The collection channel is the list of samples sent so far, oldest first, and
  every run of the external command is recorded with its arguments.
-/

namespace Jstat

/-! ## Text -/

/-- White space as decided by Go's `unicode.IsSpace`. -/
def IsSpace (c : Char) : Bool :=
  let r := c.toNat
  r == 9 || r == 10 || r == 11 || r == 12 || r == 13 || r == 32 || r == 0x85 || r == 0xA0 ||
  r == 0x1680 || (decide (0x2000 ≤ r) && decide (r ≤ 0x200a)) || r == 0x2028 || r == 0x2029 ||
  r == 0x202f || r == 0x205f || r == 0x3000

/-- Go's `strings.Split(s, sep)` for a separator of one character: the pieces of `s`
between the occurrences of `sep`; always at least one piece. -/
def Split (sep : Char) : List Char → List (List Char)
  | [] => [[]]
  | c :: cs =>
    if c = sep then [] :: Split sep cs
    else
      match Split sep cs with
      | [] => [[c]]
      | l :: ls => (c :: l) :: ls

/-- The loop of Go's `strings.FieldsFunc(s, unicode.IsSpace)`: `cur` is the field being
read (`none` when the scan is between fields), in reverse. -/
def FieldsFrom : Option (List Char) → List Char → List (List Char)
  | none, [] => []
  | some f, [] => [f.reverse]
  | none, c :: cs => if IsSpace c then FieldsFrom none cs else FieldsFrom (some [c]) cs
  | some f, c :: cs =>
    if IsSpace c then f.reverse :: FieldsFrom none cs else FieldsFrom (some (c :: f)) cs

/-- Go's `strings.Fields`: the maximal runs of characters that are not white space. -/
def Fields (s : List Char) : List (List Char) := FieldsFrom none s

/-- The line feed, the separator `"\n"` of the source. -/
def newline : Char := Char.ofNat 10

/-! ## Gauges and the exporter -/

/-- The options a gauge is created with (`prometheus.GaugeOpts`). -/
structure GaugeOpts where
  Namespace : String
  Subsystem : String
  Name : String
  Help : String
  deriving DecidableEq, Repr

/-- Go's `prometheus.BuildFQName`. -/
def BuildFQName (ns subsystem name : String) : String :=
  if name = "" then ""
  else if ns ≠ "" ∧ subsystem ≠ "" then ns ++ "_" ++ subsystem ++ "_" ++ name
  else if ns ≠ "" then ns ++ "_" ++ name
  else if subsystem ≠ "" then subsystem ++ "_" ++ name
  else name

/-- A gauge: its fully qualified name, its help text and its current value. -/
structure Gauge (V : Type) where
  fqName : String
  help : String
  value : V
  deriving DecidableEq, Repr

/-- Go's `prometheus.NewGauge`: a gauge starts at zero. -/
def NewGauge {V : Type} [Zero V] (opts : GaugeOpts) : Gauge V :=
  { fqName := BuildFQName opts.Namespace opts.Subsystem opts.Name, help := opts.Help, value := 0 }

/-- Go's `Gauge.Set`. -/
def Gauge.Set {V : Type} (g : Gauge V) (v : V) : Gauge V := { g with value := v }

/-- The constant `namespace` of the source. -/
def namespace_ : String := "jstat"

/-- The source's `Exporter` struct (the unused `logger` left out). -/
structure Exporter (V : Type) where
  jstatPath : String
  targetPid : String
  newMax : Gauge V
  newCommit : Gauge V
  oldMax : Gauge V
  oldCommit : Gauge V
  metaMax : Gauge V
  metaCommit : Gauge V
  metaUsed : Gauge V
  oldUsed : Gauge V
  sv0Used : Gauge V
  sv1Used : Gauge V
  edenUsed : Gauge V
  fgcTimes : Gauge V
  fgcSec : Gauge V
  deriving DecidableEq, Repr

/-- The source's `NewExporter`. -/
def NewExporter {V : Type} [Zero V] (jstatPath targetPid : String) : Exporter V :=
  { jstatPath := jstatPath
    targetPid := targetPid
    newMax := NewGauge { Namespace := namespace_, Subsystem := "", Name := "newMax", Help := "newMax" }
    newCommit := NewGauge { Namespace := namespace_, Subsystem := "", Name := "newCommit", Help := "newCommit" }
    oldMax := NewGauge { Namespace := namespace_, Subsystem := "", Name := "oldMax", Help := "oldMax" }
    oldCommit := NewGauge { Namespace := namespace_, Subsystem := "", Name := "oldCommit", Help := "oldCommit" }
    metaMax := NewGauge { Namespace := namespace_, Subsystem := "", Name := "metaMax", Help := "metaMax" }
    metaCommit := NewGauge { Namespace := namespace_, Subsystem := "", Name := "metaCommit", Help := "metaCommit" }
    metaUsed := NewGauge { Namespace := namespace_, Subsystem := "", Name := "metaUsed", Help := "metaUsed" }
    oldUsed := NewGauge { Namespace := namespace_, Subsystem := "", Name := "oldUsed", Help := "oldUsed" }
    sv0Used := NewGauge { Namespace := namespace_, Subsystem := "", Name := "sv0Used", Help := "sv0Used" }
    sv1Used := NewGauge { Namespace := namespace_, Subsystem := "", Name := "sv1Used", Help := "sv1Used" }
    edenUsed := NewGauge { Namespace := namespace_, Subsystem := "", Name := "edenUsed", Help := "edenUsed" }
    fgcTimes := NewGauge { Namespace := namespace_, Subsystem := "", Name := "fgcTimes", Help := "fgcTimes" }
    fgcSec := NewGauge { Namespace := namespace_, Subsystem := "", Name := "fgcSec", Help := "fgcSec" } }

/-- The thirteen gauge fields of `Exporter`, in the order of the struct. -/
inductive GaugeId where
  | newMax | newCommit | oldMax | oldCommit | metaMax | metaCommit
  | metaUsed | oldUsed | sv0Used | sv1Used | edenUsed | fgcTimes | fgcSec
  deriving DecidableEq, Repr

/-- The gauge held by a field of the exporter. -/
def Exporter.gauge {V : Type} (e : Exporter V) : GaugeId → Gauge V
  | .newMax => e.newMax
  | .newCommit => e.newCommit
  | .oldMax => e.oldMax
  | .oldCommit => e.oldCommit
  | .metaMax => e.metaMax
  | .metaCommit => e.metaCommit
  | .metaUsed => e.metaUsed
  | .oldUsed => e.oldUsed
  | .sv0Used => e.sv0Used
  | .sv1Used => e.sv1Used
  | .edenUsed => e.edenUsed
  | .fgcTimes => e.fgcTimes
  | .fgcSec => e.fgcSec

/-- All gauge fields, in the order of the struct and of `Describe`. -/
def allGauges : List GaugeId :=
  [.newMax, .newCommit, .oldMax, .oldCommit, .metaMax, .metaCommit,
   .metaUsed, .oldUsed, .sv0Used, .sv1Used, .edenUsed, .fgcTimes, .fgcSec]

/-- The source's `Describe`: the descriptors (names) of the thirteen gauges, in order. -/
def Describe {V : Type} (e : Exporter V) : List String :=
  [e.newMax.fqName, e.newCommit.fqName, e.oldMax.fqName, e.oldCommit.fqName,
   e.metaMax.fqName, e.metaCommit.fqName, e.metaUsed.fqName, e.oldUsed.fqName,
   e.sv0Used.fqName, e.sv1Used.fqName, e.edenUsed.fqName, e.fgcTimes.fqName, e.fgcSec.fqName]

/-! ## The process state and its steps -/

/-- What `g.Collect(ch)` sends on the channel: the gauge itself.  The sample records which
gauge of the exporter it is and the gauge as it stood when it was sent. -/
structure Sample (V : Type) where
  id : GaugeId
  gauge : Gauge V
  deriving DecidableEq, Repr

/-- The state a scrape works on: the exporter, the samples sent on the collection channel
(oldest first) and the external commands run so far (with their arguments). -/
structure World (V : Type) where
  e : Exporter V
  ch : List (Sample V)
  cmds : List (List String)
  deriving DecidableEq, Repr

/-- What the program does not define itself: `strconv.ParseFloat(s, 64)` (`none` for an
error) and `exec.Command(args...).Output()` (the standard output and the error, `none`
for `nil`). -/
structure Env (V : Type) where
  ParseFloat : List Char → Option V
  Output : List String → List Char × Option String

/-- How a routine ends: it returns (`ok`), the process exits through `stdlog.Fatal`
(`fatal`), or it panics on an index out of range (`panic`).  Each case carries the state
reached. -/
inductive Step (V : Type) (α : Type) where
  | ok (a : α) (w : World V)
  | fatal (w : World V)
  | panic (w : World V)
  deriving DecidableEq, Repr

/-- The state a step ended in. -/
def Step.world {V α : Type} : Step V α → World V
  | .ok _ w => w
  | .fatal w => w
  | .panic w => w

/-- Whether the routine returned to its caller. -/
def Step.returned {V α : Type} : Step V α → Bool
  | .ok _ _ => true
  | _ => false

/-- A routine: from a state to a step. -/
def Proc (V : Type) (α : Type) : Type := World V → Step V α

/-- Sequencing: the rest runs only when the first part returned. -/
def Proc.bind {V α β : Type} (m : Proc V α) (f : α → Proc V β) : Proc V β := fun w =>
  match m w with
  | .ok a w1 => f a w1
  | .fatal w1 => .fatal w1
  | .panic w1 => .panic w1

instance {V : Type} : Monad (Proc V) where
  pure a := fun w => .ok a w
  bind := Proc.bind

/-- Go's `stdlog.Fatal`: the process exits. -/
def Fatal {V α : Type} : Proc V α := fun w => .fatal w

/-- Indexing a slice, `parts[k]`: a panic when `k` is out of range. -/
def index {V : Type} (parts : List (List Char)) (k : Nat) : Proc V (List Char) := fun w =>
  match parts[k]? with
  | some f => .ok f w
  | none => .panic w

/-- The exporter of the current state (the receiver `e`). -/
def getExporter {V : Type} : Proc V (Exporter V) := fun w => .ok w.e w

/-- Running `exec.Command(args...).Output()`: the run is recorded, the result comes from the
environment. -/
def Output {V : Type} (env : Env V) (args : List String) :
    Proc V (List Char × Option String) := fun w =>
  .ok (env.Output args) { w with cmds := w.cmds ++ [args] }

/-- Replacing the gauge held by a field of the exporter. -/
def Exporter.update {V : Type} (e : Exporter V) (f : Gauge V → Gauge V) : GaugeId → Exporter V
  | .newMax => { e with newMax := f e.newMax }
  | .newCommit => { e with newCommit := f e.newCommit }
  | .oldMax => { e with oldMax := f e.oldMax }
  | .oldCommit => { e with oldCommit := f e.oldCommit }
  | .metaMax => { e with metaMax := f e.metaMax }
  | .metaCommit => { e with metaCommit := f e.metaCommit }
  | .metaUsed => { e with metaUsed := f e.metaUsed }
  | .oldUsed => { e with oldUsed := f e.oldUsed }
  | .sv0Used => { e with sv0Used := f e.sv0Used }
  | .sv1Used => { e with sv1Used := f e.sv1Used }
  | .edenUsed => { e with edenUsed := f e.edenUsed }
  | .fgcTimes => { e with fgcTimes := f e.fgcTimes }
  | .fgcSec => { e with fgcSec := f e.fgcSec }

/-- The statement `e.<g>.Set(v)`. -/
def Set {V : Type} (g : GaugeId) (v : V) : Proc V Unit := fun w =>
  .ok () { w with e := w.e.update (fun x => x.Set v) g }

/-- The statement `e.<g>.Collect(ch)`: the gauge is sent on the channel. -/
def CollectGauge {V : Type} (g : GaugeId) : Proc V Unit := fun w =>
  .ok () { w with ch := w.ch ++ [{ id := g, gauge := w.e.gauge g }] }

/-- The loop `for i, line := range lines { body }`, from index `i` on. -/
def forRange {V : Type} (body : Nat → List Char → Proc V Unit) :
    Nat → List (List Char) → Proc V Unit
  | _, [] => pure ()
  | i, line :: rest => do
    body i line
    forRange body (i + 1) rest

/-! ## The four report routines and `Collect` -/

/-- The source's `Exporter.JstatGccapacity`. -/
def JstatGccapacity {V : Type} (env : Env V) : Proc V Unit := do
  let e ← getExporter
  let (out, err) ← Output env [e.jstatPath, "-gccapacity", e.targetPid]
  if err.isSome then Fatal
  forRange (fun i line => do
    if i = 1 then
      let parts := Fields line
      let some newMax := env.ParseFloat (← index parts 1) | Fatal
      Set .newMax newMax
      CollectGauge .newMax
      let some newCommit := env.ParseFloat (← index parts 2) | Fatal
      Set .newCommit newCommit
      CollectGauge .newCommit
      let some oldMax := env.ParseFloat (← index parts 7) | Fatal
      Set .oldMax oldMax
      CollectGauge .oldMax
      let some oldCommit := env.ParseFloat (← index parts 8) | Fatal
      Set .oldCommit oldCommit
      CollectGauge .oldCommit
      let some metaMax := env.ParseFloat (← index parts 11) | Fatal
      Set .metaMax metaMax
      CollectGauge .metaMax
      let some metaCommit := env.ParseFloat (← index parts 12) | Fatal
      Set .metaCommit metaCommit
      CollectGauge .metaCommit) 0 (Split newline out)

/-- The source's `Exporter.JstatGcold`. -/
def JstatGcold {V : Type} (env : Env V) : Proc V Unit := do
  let e ← getExporter
  let (out, err) ← Output env [e.jstatPath, "-gcold", e.targetPid]
  if err.isSome then Fatal
  forRange (fun i line => do
    if i = 1 then
      let parts := Fields line
      let some metaUsed := env.ParseFloat (← index parts 1) | Fatal
      Set .metaUsed metaUsed
      CollectGauge .metaUsed
      let some oldUsed := env.ParseFloat (← index parts 5) | Fatal
      Set .oldUsed oldUsed
      CollectGauge .oldUsed) 0 (Split newline out)

/-- The source's `Exporter.JstatGcnew`. -/
def JstatGcnew {V : Type} (env : Env V) : Proc V Unit := do
  let e ← getExporter
  let (out, err) ← Output env [e.jstatPath, "-gcnew", e.targetPid]
  if err.isSome then Fatal
  forRange (fun i line => do
    if i = 1 then
      let parts := Fields line
      let some sv0Used := env.ParseFloat (← index parts 2) | Fatal
      Set .sv0Used sv0Used
      CollectGauge .sv0Used
      let some sv1Used := env.ParseFloat (← index parts 3) | Fatal
      Set .sv1Used sv1Used
      CollectGauge .sv1Used
      let some edenUsed := env.ParseFloat (← index parts 8) | Fatal
      Set .edenUsed edenUsed
      CollectGauge .edenUsed) 0 (Split newline out)

/-- The source's `Exporter.JstatGc`. -/
def JstatGc {V : Type} (env : Env V) : Proc V Unit := do
  let e ← getExporter
  let (out, err) ← Output env [e.jstatPath, "-gc", e.targetPid]
  if err.isSome then Fatal
  forRange (fun i line => do
    if i = 1 then
      let parts := Fields line
      let some fgcTimes := env.ParseFloat (← index parts 14) | Fatal
      Set .fgcTimes fgcTimes
      CollectGauge .fgcTimes
      let some fgcSec := env.ParseFloat (← index parts 15) | Fatal
      Set .fgcSec fgcSec
      CollectGauge .fgcSec) 0 (Split newline out)

/-- The source's `Exporter.Collect`. -/
def Collect {V : Type} (env : Env V) : Proc V Unit := do
  JstatGccapacity env
  JstatGcold env
  JstatGcnew env
  JstatGc env


/-! ## The positions each routine reads -/

/-- The positions `JstatGccapacity` reads, each with the gauge it is stored in, in the order
of the source. -/
def gccapacityReads : List (Nat × GaugeId) :=
  [(1, .newMax), (2, .newCommit), (7, .oldMax), (8, .oldCommit), (11, .metaMax),
   (12, .metaCommit)]

/-- The positions `JstatGcold` reads, each with its gauge. -/
def gcoldReads : List (Nat × GaugeId) := [(1, .metaUsed), (5, .oldUsed)]

/-- The positions `JstatGcnew` reads, each with its gauge. -/
def gcnewReads : List (Nat × GaugeId) := [(2, .sv0Used), (3, .sv1Used), (8, .edenUsed)]

/-- The positions `JstatGc` reads, each with its gauge. -/
def gcReads : List (Nat × GaugeId) := [(14, .fgcTimes), (15, .fgcSec)]

/-- The state after `e.<g>.Set(v)` followed by `e.<g>.Collect(ch)`. -/
def World.put {V : Type} (w : World V) (g : GaugeId) (v : V) : World V :=
  { e := w.e.update (fun x => x.Set v) g
    ch := w.ch ++ [{ id := g, gauge := (w.e.update (fun x => x.Set v) g).gauge g }]
    cmds := w.cmds }

/-- Several gauges set and collected one after the other. -/
def World.putAll {V : Type} (w : World V) : List (GaugeId × V) → World V
  | [] => w
  | (g, v) :: rest => (w.put g v).putAll rest

/-- The state once the command of a report has been run. -/
def World.ran {V : Type} (w : World V) (mode : String) : World V :=
  { w with cmds := w.cmds ++ [[w.e.jstatPath, mode, w.e.targetPid]] }

/-- The value read from position `k` of a line split into `parts`: `none` when the
position is missing or its field does not parse. -/
def fieldValue {V : Type} (env : Env V) (parts : List (List Char)) (k : Nat) : Option V :=
  match parts[k]? with
  | none => none
  | some f => env.ParseFloat f

/-- The samples a step has added to the channel of the state it started from. -/
def newSamples {V α : Type} (w : World V) (s : Step V α) : List (Sample V) :=
  s.world.ch.drop w.ch.length

/-- Reading the listed positions of `parts` in order, each into its gauge: the body of the
loop of a report routine, as a recursion over the table of its reads. -/
def readAll {V : Type} (env : Env V) (parts : List (List Char)) :
    List (Nat × GaugeId) → Proc V Unit
  | [] => fun w => .ok () w
  | (k, g) :: rest => fun w =>
    match parts[k]? with
    | none => .panic w
    | some f =>
      match env.ParseFloat f with
      | none => .fatal w
      | some v => readAll env parts rest (w.put g v)

/-- A report routine, by its mode and the table of its reads. -/
def report {V : Type} (env : Env V) (mode : String) (reads : List (Nat × GaugeId)) :
    Proc V Unit := fun w =>
  match env.Output [w.e.jstatPath, mode, w.e.targetPid] with
  | (_, some _) => .fatal (w.ran mode)
  | (out, none) =>
    match (Split newline out)[1]? with
    | none => .ok () (w.ran mode)
    | some line => readAll env (Fields line) reads (w.ran mode)

/-- The values read from the listed positions, up to the first one that is missing or does
not parse. -/
def readValues {V : Type} (env : Env V) (parts : List (List Char)) :
    List (Nat × GaugeId) → List V
  | [] => []
  | (k, _) :: rest =>
    match fieldValue env parts k with
    | none => []
    | some v => v :: readValues env parts rest

/-- The samples sent when the listed gauges of `w` are set to the listed values. -/
def samplesOf {V : Type} (w : World V) (gvs : List (GaugeId × V)) : List (Sample V) :=
  gvs.map fun gv => { id := gv.1, gauge := (w.e.gauge gv.1).Set gv.2 }

/-! ## The four report modes -/

/-- The report modes of `jstat` the exporter uses, in the order `Collect` runs them. -/
inductive Mode where
  | gccapacity | gcold | gcnew | gc
  deriving DecidableEq, Repr

/-- The command-line option of a mode. -/
def Mode.flag : Mode → String
  | .gccapacity => "-gccapacity"
  | .gcold => "-gcold"
  | .gcnew => "-gcnew"
  | .gc => "-gc"

/-- The routine of a mode. -/
def Mode.run {V : Type} (env : Env V) : Mode → Proc V Unit
  | .gccapacity => JstatGccapacity env
  | .gcold => JstatGcold env
  | .gcnew => JstatGcnew env
  | .gc => JstatGc env

/-- The positions the routine of a mode reads, each with its gauge. -/
def Mode.reads : Mode → List (Nat × GaugeId)
  | .gccapacity => gccapacityReads
  | .gcold => gcoldReads
  | .gcnew => gcnewReads
  | .gc => gcReads

/-- The gauges the routine of a mode writes. -/
def Mode.gauges (m : Mode) : List GaugeId := m.reads.map Prod.snd

/-- The number of fields the routine of a mode needs on the second line: one more than the
last position it reads. -/
def Mode.needed : Mode → Nat
  | .gccapacity => 13
  | .gcold => 6
  | .gcnew => 9
  | .gc => 16

/-- The second line of an output: element 1 of the output split on the line feed. -/
def secondLine (out : List Char) : Option (List Char) := (Split newline out)[1]?

/-! ## A sample environment, for evaluating the routines -/

/-- An exact decimal number, `digits / 10 ^ scale`. -/
structure Decimal where
  digits : Nat
  scale : Nat
  deriving DecidableEq, Repr

instance : Zero Decimal := ⟨{ digits := 0, scale := 0 }⟩

/-- The value of a decimal digit. -/
def digitValue (c : Char) : Option Nat :=
  if 48 ≤ c.toNat ∧ c.toNat ≤ 57 then some (c.toNat - 48) else none

/-- Reading an unsigned decimal numeral: `acc` the digits so far, `seen` whether a digit was
read, `scale` the number of digits after the point once the point was read. -/
def parseDecimalFrom : Nat → Bool → Option Nat → List Char → Option Decimal
  | acc, true, scale, [] => some { digits := acc, scale := scale.getD 0 }
  | _, false, _, [] => none
  | acc, seen, scale, c :: cs =>
    if c.toNat = 46 then
      match scale with
      | none => parseDecimalFrom acc seen (some 0) cs
      | some _ => none
    else
      match digitValue c with
      | none => none
      | some d => parseDecimalFrom (acc * 10 + d) true (scale.map (· + 1)) cs

/-- A parser standing in for `strconv.ParseFloat` when a routine is evaluated: it reads the
unsigned decimal numerals (`12`, `12.5`, `.5`, `12.`), which `ParseFloat` accepts too, keeps
their exact value, and rejects everything else. -/
def parseDecimal (s : List Char) : Option Decimal := parseDecimalFrom 0 false none s

/-- An environment with the parser `parseDecimal` whose command answers by `outputs`, a
function of the mode asked for (the second argument of the command). -/
def envOf (outputs : String → List Char × Option String) : Env Decimal :=
  { ParseFloat := parseDecimal
    Output := fun args =>
      match args with
      | [_, mode, _] => outputs mode
      | _ => ([], some "usage") }

/-- A fresh exporter in a state where nothing was sent and no command was run. -/
def freshWorld : World Decimal :=
  { e := NewExporter "/usr/bin/jstat" "4242", ch := [], cmds := [] }

/-- The row of values of a `-gccapacity` report. -/
def capacityLine : List Char :=
  ("10240.0 160256.0 10240.0 1024.0 1024.0 8192.0 20480.0 320512.0 20480.0 20480.0 " ++
    "0.0 1056768.0 4864.0 0.0 1048576.0 512.0 1 0").toList

/-- A `-gccapacity` report: the header row and the row of values. -/
def capacityReport : List Char :=
  ("NGCMN NGCMX NGC S0C S1C EC OGCMN OGCMX OGC OC MCMN MCMX MC CCSMN CCSMX CCSC " ++
    "YGC FGC").toList ++ newline :: capacityLine ++ [newline]

/-- The row of values of a `-gcold` report. -/
def oldLine : List Char := "4864.0 2627.5 512.0 283.7 20480.0 0.0 1 0 0.000 0.006".toList

/-- A `-gcold` report. -/
def oldReport : List Char :=
  "MC MU CCSC CCSU OC OU YGC FGC FGCT GCT".toList ++ newline :: oldLine ++ [newline]

/-- The row of values of a `-gcnew` report. -/
def newLine : List Char := "1024.0 1024.0 0.0 1008.0 15 15 512.0 8192.0 3270.9 1 0.006".toList

/-- A `-gcnew` report. -/
def newReport : List Char :=
  "S0C S1C S0U S1U TT MTT DSS EC EU YGC YGCT".toList ++ newline :: newLine ++ [newline]

/-- The row of values of a `-gc` report. -/
def gcLine : List Char :=
  ("1024.0 1024.0 0.0 1008.0 8192.0 3270.9 20480.0 0.0 4864.0 2627.5 512.0 283.7 1 0.006 " ++
    "0 0.000 0.006").toList

/-- A `-gc` report. -/
def gcReport : List Char :=
  "S0C S1C S0U S1U EC EU OC OU MC MU CCSC CCSU YGC YGCT FGC FGCT GCT".toList ++
    newline :: gcLine ++ [newline]

/-- The sample reports by mode. -/
def sampleOutputs (mode : String) : List Char × Option String :=
  if mode = "-gccapacity" then (capacityReport, none)
  else if mode = "-gcold" then (oldReport, none)
  else if mode = "-gcnew" then (newReport, none)
  else if mode = "-gc" then (gcReport, none)
  else ([], some "exit status 1")

/-- The environment in which every mode prints its sample report. -/
def sampleEnv : Env Decimal := envOf sampleOutputs

/-- The values the sample reports hold for the gauges. -/
def sampleValues : GaugeId → Decimal
  | .newMax => { digits := 1602560, scale := 1 }
  | .newCommit => { digits := 102400, scale := 1 }
  | .oldMax => { digits := 3205120, scale := 1 }
  | .oldCommit => { digits := 204800, scale := 1 }
  | .metaMax => { digits := 10567680, scale := 1 }
  | .metaCommit => { digits := 48640, scale := 1 }
  | .metaUsed => { digits := 26275, scale := 1 }
  | .oldUsed => { digits := 0, scale := 1 }
  | .sv0Used => { digits := 0, scale := 1 }
  | .sv1Used => { digits := 10080, scale := 1 }
  | .edenUsed => { digits := 32709, scale := 1 }
  | .fgcTimes => { digits := 0, scale := 0 }
  | .fgcSec => { digits := 0, scale := 3 }

/-- A row of a `-gcold` report cut after its fifth field. -/
def shortOldLine : List Char := "4864.0 2627.5 512.0 283.7 20480.0".toList

/-- A `-gcold` report whose row of values is cut short. -/
def shortOldReport : List Char :=
  "MC MU CCSC CCSU OC OU YGC FGC FGCT GCT".toList ++ newline :: shortOldLine

/-- A row of a `-gcold` report whose field OU (position 5) is a dash. -/
def dashOldLine : List Char := "4864.0 2627.5 512.0 283.7 20480.0 - 1 0 0.000 0.006".toList

/-- A `-gcold` report whose field OU is not a number. -/
def dashOldReport : List Char :=
  "MC MU CCSC CCSU OC OU YGC FGC FGCT GCT".toList ++ newline :: dashOldLine ++ [newline]

/-- A row with the fields MU and OU of `oldLine` at positions 1 and 5, other tokens
elsewhere and two more fields than a `-gcold` row has. -/
def otherOldLine : List Char := "- 2627.5 a b c 0.0 1 0 0.000 0.006 x y".toList

/-- An output with another header, the row `otherOldLine` and a third line. -/
def otherOldReport : List Char :=
  "header".toList ++ newline :: otherOldLine ++ newline :: "a third line".toList

/-- The header row of a `-gcold` report alone, without a line feed. -/
def headerOnly : List Char := "MC MU CCSC CCSU OC OU YGC FGC FGCT GCT".toList

/-- The environment whose command prints the `-gcold` report cut short. -/
def shortOldEnv : Env Decimal := envOf fun _ => (shortOldReport, none)

/-- The environment whose command prints the `-gcold` report with a dash for OU. -/
def dashOldEnv : Env Decimal := envOf fun _ => (dashOldReport, none)

/-- The environment whose command prints `otherOldReport`. -/
def otherOldEnv : Env Decimal := envOf fun _ => (otherOldReport, none)

/-- The environment whose command prints a header row and no line feed. -/
def headerEnv : Env Decimal := envOf fun _ => (headerOnly, none)

/-- The environment whose command fails after printing a report. -/
def failingEnv : Env Decimal := envOf fun _ => (oldReport, some "exit status 1")

/-- The environment whose command works for `-gccapacity` and fails for the other modes. -/
def halfFailingEnv : Env Decimal :=
  envOf fun mode =>
    if mode = "-gccapacity" then (capacityReport, none) else ([], some "exit status 1")

/-! ## The loop and the routines as tables -/

theorem bind_pure_unit {V : Type} (m : Proc V Unit) :
    (m >>= fun _ => (pure () : Proc V Unit)) = m := by
  funext w
  show Proc.bind m _ w = m w
  unfold Proc.bind
  cases h : m w <;> simp [pure]

theorem forRange_skip {V : Type} (body : Nat → List Char → Proc V Unit) (n : Nat)
    (h : ∀ i, n ≤ i → ∀ l, body i l = pure ()) :
    ∀ (lines : List (List Char)) (i : Nat), n ≤ i → forRange body i lines = pure () := by
  intro lines
  induction lines with
  | nil => intro i _; rfl
  | cons l ls ih =>
    intro i hi
    show (body i l >>= fun _ => forRange body (i + 1) ls) = pure ()
    rw [h i hi l, ih (i + 1) (by omega)]
    rfl

/-- A loop whose body acts at index 1 only runs that body on the second line, if there is
one. -/
theorem forRange_second {V : Type} (f : List Char → Proc V Unit) (lines : List (List Char)) :
    forRange (fun i line => if i = 1 then f line else pure ()) 0 lines =
      match lines[1]? with
      | none => pure ()
      | some line => f line := by
  have hskip := forRange_skip (fun i line => if i = 1 then f line else pure ()) 2
    (by intro i hi l; simp; omega)
  match lines with
  | [] => rfl
  | [_] => rfl
  | l0 :: l1 :: rest =>
    simp only [forRange, hskip rest 2 (le_refl _)]
    simp [bind_pure_unit]
    rfl

theorem JstatGccapacity_eq_report {V : Type} (env : Env V) :
    JstatGccapacity env = report env "-gccapacity" gccapacityReads := by
  funext w
  simp only [JstatGccapacity, forRange_second]
  simp only [bind, pure]
  simp only [Proc.bind, getExporter, Output, report, World.ran, readAll, World.put,
    gccapacityReads]
  rcases env.Output [w.e.jstatPath, "-gccapacity", w.e.targetPid] with ⟨out, err⟩
  cases err with
  | some m => rfl
  | none =>
    simp only [Option.isSome_none, Bool.false_eq_true, if_false]
    cases (Split newline out)[1]? with
    | none => rfl
    | some line =>
      simp only [Proc.bind, index, Set, CollectGauge, Fatal]
      cases (Fields line)[1]? <;> simp only [Proc.bind, index, Set, CollectGauge, Fatal]
      rename_i f
      cases env.ParseFloat f <;> simp only [Proc.bind, index, Set, CollectGauge, Fatal]
      cases (Fields line)[2]? <;> simp only [Proc.bind, index, Set, CollectGauge, Fatal]
      rename_i f
      cases env.ParseFloat f <;> simp only [Proc.bind, index, Set, CollectGauge, Fatal]
      cases (Fields line)[7]? <;> simp only [Proc.bind, index, Set, CollectGauge, Fatal]
      rename_i f
      cases env.ParseFloat f <;> simp only [Proc.bind, index, Set, CollectGauge, Fatal]
      cases (Fields line)[8]? <;> simp only [Proc.bind, index, Set, CollectGauge, Fatal]
      rename_i f
      cases env.ParseFloat f <;> simp only [Proc.bind, index, Set, CollectGauge, Fatal]
      cases (Fields line)[11]? <;> simp only [Proc.bind, index, Set, CollectGauge, Fatal]
      rename_i f
      cases env.ParseFloat f <;> simp only [Proc.bind, index, Set, CollectGauge, Fatal]
      cases (Fields line)[12]? <;> simp only [Proc.bind, index, Set, CollectGauge, Fatal]
      rename_i f
      cases env.ParseFloat f <;> simp only [Proc.bind, index, Set, CollectGauge, Fatal]

theorem JstatGcold_eq_report {V : Type} (env : Env V) :
    JstatGcold env = report env "-gcold" gcoldReads := by
  funext w
  simp only [JstatGcold, forRange_second]
  simp only [bind, pure]
  simp only [Proc.bind, getExporter, Output, report, World.ran, readAll, World.put, gcoldReads]
  rcases env.Output [w.e.jstatPath, "-gcold", w.e.targetPid] with ⟨out, err⟩
  cases err with
  | some m => rfl
  | none =>
    simp only [Option.isSome_none, Bool.false_eq_true, if_false]
    cases (Split newline out)[1]? with
    | none => rfl
    | some line =>
      simp only [Proc.bind, index, Set, CollectGauge, Fatal]
      cases (Fields line)[1]? <;> simp only [Proc.bind, index, Set, CollectGauge, Fatal]
      rename_i f
      cases env.ParseFloat f <;> simp only [Proc.bind, index, Set, CollectGauge, Fatal]
      cases (Fields line)[5]? <;> simp only [Proc.bind, index, Set, CollectGauge, Fatal]
      rename_i f
      cases env.ParseFloat f <;> simp only [Proc.bind, index, Set, CollectGauge, Fatal]

theorem JstatGcnew_eq_report {V : Type} (env : Env V) :
    JstatGcnew env = report env "-gcnew" gcnewReads := by
  funext w
  simp only [JstatGcnew, forRange_second]
  simp only [bind, pure]
  simp only [Proc.bind, getExporter, Output, report, World.ran, readAll, World.put, gcnewReads]
  rcases env.Output [w.e.jstatPath, "-gcnew", w.e.targetPid] with ⟨out, err⟩
  cases err with
  | some m => rfl
  | none =>
    simp only [Option.isSome_none, Bool.false_eq_true, if_false]
    cases (Split newline out)[1]? with
    | none => rfl
    | some line =>
      simp only [Proc.bind, index, Set, CollectGauge, Fatal]
      cases (Fields line)[2]? <;> simp only [Proc.bind, index, Set, CollectGauge, Fatal]
      rename_i f
      cases env.ParseFloat f <;> simp only [Proc.bind, index, Set, CollectGauge, Fatal]
      cases (Fields line)[3]? <;> simp only [Proc.bind, index, Set, CollectGauge, Fatal]
      rename_i f
      cases env.ParseFloat f <;> simp only [Proc.bind, index, Set, CollectGauge, Fatal]
      cases (Fields line)[8]? <;> simp only [Proc.bind, index, Set, CollectGauge, Fatal]
      rename_i f
      cases env.ParseFloat f <;> simp only [Proc.bind, index, Set, CollectGauge, Fatal]

theorem JstatGc_eq_report {V : Type} (env : Env V) :
    JstatGc env = report env "-gc" gcReads := by
  funext w
  simp only [JstatGc, forRange_second]
  simp only [bind, pure]
  simp only [Proc.bind, getExporter, Output, report, World.ran, readAll, World.put, gcReads]
  rcases env.Output [w.e.jstatPath, "-gc", w.e.targetPid] with ⟨out, err⟩
  cases err with
  | some m => rfl
  | none =>
    simp only [Option.isSome_none, Bool.false_eq_true, if_false]
    cases (Split newline out)[1]? with
    | none => rfl
    | some line =>
      simp only [Proc.bind, index, Set, CollectGauge, Fatal]
      cases (Fields line)[14]? <;> simp only [Proc.bind, index, Set, CollectGauge, Fatal]
      rename_i f
      cases env.ParseFloat f <;> simp only [Proc.bind, index, Set, CollectGauge, Fatal]
      cases (Fields line)[15]? <;> simp only [Proc.bind, index, Set, CollectGauge, Fatal]
      rename_i f
      cases env.ParseFloat f <;> simp only [Proc.bind, index, Set, CollectGauge, Fatal]

/-- The source's `Collect` runs the four routines in order, each only if the one before
returned. -/
theorem Collect_eq {V : Type} (env : Env V) (w : World V) :
    Collect env w =
      match JstatGccapacity env w with
      | .ok _ w1 =>
        match JstatGcold env w1 with
        | .ok _ w2 =>
          match JstatGcnew env w2 with
          | .ok _ w3 => JstatGc env w3
          | .fatal w3 => .fatal w3
          | .panic w3 => .panic w3
        | .fatal w2 => .fatal w2
        | .panic w2 => .panic w2
      | .fatal w1 => .fatal w1
      | .panic w1 => .panic w1 := by
  simp only [Collect, bind]
  simp only [Proc.bind]
  rcases JstatGccapacity env w with ⟨_, w1⟩ | w1 | w1 <;> try rfl
  simp only []
  rcases JstatGcold env w1 with ⟨_, w2⟩ | w2 | w2 <;> try rfl
  simp only []
  rcases JstatGcnew env w2 with ⟨_, w3⟩ | w3 | w3 <;> try rfl

/-! ## Updating a gauge of the exporter -/

theorem gauge_update_same {V : Type} (e : Exporter V) (f : Gauge V → Gauge V) (g : GaugeId) :
    (e.update f g).gauge g = f (e.gauge g) := by
  cases g <;> rfl

theorem gauge_update_ne {V : Type} (e : Exporter V) (f : Gauge V → Gauge V) {g g' : GaugeId}
    (h : g' ≠ g) : (e.update f g).gauge g' = e.gauge g' := by
  cases g <;> cases g' <;> first | rfl | exact absurd rfl h

theorem jstatPath_update {V : Type} (e : Exporter V) (f : Gauge V → Gauge V) (g : GaugeId) :
    (e.update f g).jstatPath = e.jstatPath := by
  cases g <;> rfl

theorem targetPid_update {V : Type} (e : Exporter V) (f : Gauge V → Gauge V) (g : GaugeId) :
    (e.update f g).targetPid = e.targetPid := by
  cases g <;> rfl

theorem put_gauge_same {V : Type} (w : World V) (g : GaugeId) (v : V) :
    (w.put g v).e.gauge g = (w.e.gauge g).Set v :=
  gauge_update_same w.e _ g

theorem put_gauge_ne {V : Type} (w : World V) (v : V) {g g' : GaugeId} (h : g' ≠ g) :
    (w.put g v).e.gauge g' = w.e.gauge g' :=
  gauge_update_ne w.e _ h

theorem put_ch {V : Type} (w : World V) (g : GaugeId) (v : V) :
    (w.put g v).ch = w.ch ++ [{ id := g, gauge := (w.e.gauge g).Set v }] := by
  simp [World.put, gauge_update_same]

theorem put_fqName {V : Type} (w : World V) (g g' : GaugeId) (v : V) :
    ((w.put g v).e.gauge g').fqName = (w.e.gauge g').fqName := by
  by_cases h : g' = g
  · subst h; rw [put_gauge_same]; rfl
  · rw [put_gauge_ne w v h]

/-! ## Reading a table of positions -/

theorem readAll_cons_some {V : Type} (env : Env V) (parts : List (List Char)) (k : Nat)
    (g : GaugeId) (rest : List (Nat × GaugeId)) (w : World V) {v : V}
    (h : fieldValue env parts k = some v) :
    readAll env parts ((k, g) :: rest) w = readAll env parts rest (w.put g v) := by
  unfold fieldValue at h
  cases hp : parts[k]? with
  | none => simp [hp] at h
  | some f =>
    simp only [hp] at h
    simp only [readAll, hp, h]

theorem readAll_cons_none {V : Type} (env : Env V) (parts : List (List Char)) (k : Nat)
    (g : GaugeId) (rest : List (Nat × GaugeId)) (w : World V)
    (h : fieldValue env parts k = none) :
    (readAll env parts ((k, g) :: rest) w).returned = false ∧
      (readAll env parts ((k, g) :: rest) w).world = w := by
  unfold fieldValue at h
  cases hp : parts[k]? with
  | none => simp [readAll, hp, Step.returned, Step.world]
  | some f =>
    simp only [hp] at h
    simp [readAll, hp, h, Step.returned, Step.world]

/-! ## Setting and collecting several gauges -/

theorem putAll_cmds {V : Type} (gvs : List (GaugeId × V)) :
    ∀ w : World V, (w.putAll gvs).cmds = w.cmds := by
  induction gvs with
  | nil => intro w; rfl
  | cons gv rest ih => intro w; obtain ⟨g, v⟩ := gv; exact (ih (w.put g v)).trans rfl

theorem putAll_jstatPath {V : Type} (gvs : List (GaugeId × V)) :
    ∀ w : World V, (w.putAll gvs).e.jstatPath = w.e.jstatPath := by
  induction gvs with
  | nil => intro w; rfl
  | cons gv rest ih =>
    intro w; obtain ⟨g, v⟩ := gv
    exact (ih (w.put g v)).trans (jstatPath_update w.e _ g)

theorem putAll_targetPid {V : Type} (gvs : List (GaugeId × V)) :
    ∀ w : World V, (w.putAll gvs).e.targetPid = w.e.targetPid := by
  induction gvs with
  | nil => intro w; rfl
  | cons gv rest ih =>
    intro w; obtain ⟨g, v⟩ := gv
    exact (ih (w.put g v)).trans (targetPid_update w.e _ g)

theorem putAll_fqName {V : Type} (gvs : List (GaugeId × V)) :
    ∀ (w : World V) (g : GaugeId), ((w.putAll gvs).e.gauge g).fqName = (w.e.gauge g).fqName := by
  induction gvs with
  | nil => intro w g; rfl
  | cons gv rest ih =>
    intro w g; obtain ⟨g', v⟩ := gv
    exact (ih (w.put g' v) g).trans (put_fqName w g' g v)

/-- Gauges that are not in the list keep their state. -/
theorem putAll_gauge_of_not_mem {V : Type} (gvs : List (GaugeId × V)) :
    ∀ (w : World V) (g : GaugeId), g ∉ gvs.map Prod.fst →
      (w.putAll gvs).e.gauge g = w.e.gauge g := by
  induction gvs with
  | nil => intro w g _; rfl
  | cons gv rest ih =>
    intro w g hg; obtain ⟨g', v⟩ := gv
    simp only [List.map_cons, List.mem_cons, not_or] at hg
    exact (ih (w.put g' v) g hg.2).trans (put_gauge_ne w v hg.1)

/-- A gauge of the list, each gauge listed once, ends with its listed value. -/
theorem putAll_gauge_of_mem {V : Type} (gvs : List (GaugeId × V)) :
    ∀ (w : World V) (g : GaugeId) (v : V), (gvs.map Prod.fst).Nodup → (g, v) ∈ gvs →
      (w.putAll gvs).e.gauge g = (w.e.gauge g).Set v := by
  induction gvs with
  | nil => intro w g v _ h; simp at h
  | cons gv rest ih =>
    intro w g v hnd h; obtain ⟨g', v'⟩ := gv
    simp only [List.map_cons, List.nodup_cons] at hnd
    rcases List.mem_cons.1 h with heq | hmem
    · obtain ⟨rfl, rfl⟩ := Prod.mk.inj heq
      exact (putAll_gauge_of_not_mem rest (w.put g v) g hnd.1).trans (put_gauge_same w g v)
    · have hne : g ≠ g' := by
        rintro rfl
        exact hnd.1 (List.mem_map.2 ⟨(g, v), hmem, rfl⟩)
      rw [World.putAll, ih (w.put g' v') g v hnd.2 hmem, put_gauge_ne w v' hne]

/-- The samples sent: one for each listed gauge, in order, each with its listed value. -/
theorem putAll_ch {V : Type} (gvs : List (GaugeId × V)) :
    ∀ w : World V, (gvs.map Prod.fst).Nodup → (w.putAll gvs).ch = w.ch ++ samplesOf w gvs := by
  induction gvs with
  | nil => intro w _; simp [World.putAll, samplesOf]
  | cons gv rest ih =>
    intro w hnd; obtain ⟨g, v⟩ := gv
    simp only [List.map_cons, List.nodup_cons] at hnd
    rw [World.putAll, ih (w.put g v) hnd.2, put_ch]
    have hrest : samplesOf (w.put g v) rest = samplesOf w rest := by
      unfold samplesOf
      apply List.map_congr_left
      intro gv hgv
      have hne : gv.1 ≠ g := by
        rintro rfl
        exact hnd.1 (List.mem_map.2 ⟨gv, hgv, rfl⟩)
      rw [put_gauge_ne w v hne]
    rw [hrest]
    simp [samplesOf]

/-! ## What reading a table does -/

/-- The state reading ends in: the gauges of the positions before the first failing one are
set and collected, nothing else. -/
theorem readAll_world {V : Type} (env : Env V) (parts : List (List Char)) :
    ∀ (reads : List (Nat × GaugeId)) (w : World V),
      (readAll env parts reads w).world =
        w.putAll ((reads.map Prod.snd).zip (readValues env parts reads)) := by
  intro reads
  induction reads with
  | nil => intro w; rfl
  | cons r rest ih =>
    intro w; obtain ⟨k, g⟩ := r
    cases h : fieldValue env parts k with
    | none =>
      rw [(readAll_cons_none env parts k g rest w h).2]
      simp [readValues, h, World.putAll]
    | some v =>
      rw [readAll_cons_some env parts k g rest w h, ih]
      simp [readValues, h, World.putAll]

/-- Reading returns exactly when every listed position has a field that parses. -/
theorem readAll_returned {V : Type} (env : Env V) (parts : List (List Char)) :
    ∀ (reads : List (Nat × GaugeId)) (w : World V),
      (readAll env parts reads w).returned = true ↔
        (readValues env parts reads).length = reads.length := by
  intro reads
  induction reads with
  | nil => intro w; simp [readAll, readValues, Step.returned]
  | cons r rest ih =>
    intro w; obtain ⟨k, g⟩ := r
    cases h : fieldValue env parts k with
    | none =>
      rw [(readAll_cons_none env parts k g rest w h).1]
      simp [readValues, h]
    | some v =>
      rw [readAll_cons_some env parts k g rest w h, ih]
      simp [readValues, h]

theorem readValues_length_le {V : Type} (env : Env V) (parts : List (List Char)) :
    ∀ reads : List (Nat × GaugeId), (readValues env parts reads).length ≤ reads.length := by
  intro reads
  induction reads with
  | nil => simp [readValues]
  | cons r rest ih =>
    obtain ⟨k, g⟩ := r
    cases h : fieldValue env parts k <;> simp [readValues, h, ih]

/-- Every value read is the value of the field at its position. -/
theorem readValues_getElem {V : Type} (env : Env V) (parts : List (List Char)) :
    ∀ (reads : List (Nat × GaugeId)) (i : Nat) (v : V),
      (readValues env parts reads)[i]? = some v →
        ∃ r, reads[i]? = some r ∧ fieldValue env parts r.1 = some v := by
  intro reads
  induction reads with
  | nil => intro i v h; simp [readValues] at h
  | cons r rest ih =>
    intro i v h; obtain ⟨k, g⟩ := r
    cases hk : fieldValue env parts k with
    | none => simp [readValues, hk] at h
    | some v' =>
      simp only [readValues, hk] at h
      cases i with
      | zero =>
        simp only [List.getElem?_cons_zero, Option.some.injEq] at h
        subst h
        exact ⟨(k, g), by simp, hk⟩
      | succ j =>
        simp only [List.getElem?_cons_succ] at h ⊢
        exact ih j v h

/-- A position whose field is missing or does not parse stops the reading: the value of the
first such position is never read. -/
theorem readValues_stop {V : Type} (env : Env V) (parts : List (List Char)) :
    ∀ (reads : List (Nat × GaugeId)) (r : Nat × GaugeId),
      reads[(readValues env parts reads).length]? = some r → fieldValue env parts r.1 = none := by
  intro reads
  induction reads with
  | nil => intro r h; simp at h
  | cons r0 rest ih =>
    intro r h; obtain ⟨k, g⟩ := r0
    cases hk : fieldValue env parts k with
    | none =>
      simp only [readValues, hk, List.length_nil, List.getElem?_cons_zero,
        Option.some.injEq] at h
      subst h; exact hk
    | some v' =>
      simp only [readValues, hk, List.length_cons, List.getElem?_cons_succ] at h
      exact ih r h

/-- Reading depends on the fields at the listed positions only. -/
theorem readAll_congr {V : Type} (env : Env V) (parts1 parts2 : List (List Char)) :
    ∀ (reads : List (Nat × GaugeId)) (w : World V),
      (∀ r ∈ reads, parts1[r.1]? = parts2[r.1]?) →
        readAll env parts1 reads w = readAll env parts2 reads w := by
  intro reads
  induction reads with
  | nil => intro w _; rfl
  | cons r rest ih =>
    intro w h; obtain ⟨k, g⟩ := r
    have hk : parts1[k]? = parts2[k]? := h (k, g) (List.mem_cons_self _ _)
    simp only [readAll, hk]
    cases parts2[k]? with
    | none => rfl
    | some f =>
      simp only
      cases env.ParseFloat f with
      | none => rfl
      | some v => exact ih _ (fun r hr => h r (List.mem_cons_of_mem _ hr))

/-- A position of the table whose field is missing or does not parse makes the reading
fail, and its gauge is neither set nor sent. -/
theorem readAll_stop {V : Type} (env : Env V) (parts : List (List Char)) :
    ∀ (reads : List (Nat × GaugeId)) (w : World V) (k : Nat) (g : GaugeId),
      (reads.map Prod.snd).Nodup → (k, g) ∈ reads → fieldValue env parts k = none →
        (readAll env parts reads w).returned = false ∧
        (readAll env parts reads w).world.e.gauge g = w.e.gauge g ∧
        ∃ new, (readAll env parts reads w).world.ch = w.ch ++ new ∧ ∀ x ∈ new, x.id ≠ g := by
  intro reads
  induction reads with
  | nil => intro w k g _ h; simp at h
  | cons r rest ih =>
    intro w k g hnd hmem hk; obtain ⟨k', g'⟩ := r
    simp only [List.map_cons, List.nodup_cons] at hnd
    cases h' : fieldValue env parts k' with
    | none =>
      obtain ⟨h1, h2⟩ := readAll_cons_none env parts k' g' rest w h'
      exact ⟨h1, by rw [h2], [], by rw [h2]; simp, by simp⟩
    | some v =>
      rw [readAll_cons_some env parts k' g' rest w h']
      have hrest : (k, g) ∈ rest := by
        rcases List.mem_cons.1 hmem with heq | h
        · obtain ⟨rfl, rfl⟩ := Prod.mk.inj heq
          rw [hk] at h'; cases h'
        · exact h
      have hne : g ≠ g' := by
        rintro rfl
        exact hnd.1 (List.mem_map.2 ⟨(k, g), hrest, rfl⟩)
      obtain ⟨h1, h2, new, h3, h4⟩ := ih (w.put g' v) k g hnd.2 hrest hk
      refine ⟨h1, h2.trans (put_gauge_ne w v hne),
        { id := g', gauge := (w.e.gauge g').Set v } :: new, ?_, ?_⟩
      · rw [h3, put_ch, List.append_assoc]; rfl
      · intro x hx
        rcases List.mem_cons.1 hx with rfl | hx
        · exact fun h => hne h.symm
        · exact h4 x hx

/-! ## What a report routine does -/

theorem Mode.run_eq_report {V : Type} (env : Env V) (m : Mode) :
    m.run env = report env m.flag m.reads := by
  cases m
  · exact JstatGccapacity_eq_report env
  · exact JstatGcold_eq_report env
  · exact JstatGcnew_eq_report env
  · exact JstatGc_eq_report env

theorem Mode.gauges_nodup (m : Mode) : m.gauges.Nodup := by
  cases m <;> decide

theorem report_of_error {V : Type} (env : Env V) (mode : String) (reads : List (Nat × GaugeId))
    (w : World V) {out : List Char} {msg : String}
    (h : env.Output [w.e.jstatPath, mode, w.e.targetPid] = (out, some msg)) :
    report env mode reads w = .fatal (w.ran mode) := by
  simp only [report, h]

theorem report_of_no_line {V : Type} (env : Env V) (mode : String)
    (reads : List (Nat × GaugeId)) (w : World V) {out : List Char}
    (h : env.Output [w.e.jstatPath, mode, w.e.targetPid] = (out, none))
    (hl : secondLine out = none) :
    report env mode reads w = .ok () (w.ran mode) := by
  unfold secondLine at hl
  simp only [report, h, hl]

theorem report_of_line {V : Type} (env : Env V) (mode : String) (reads : List (Nat × GaugeId))
    (w : World V) {out line : List Char}
    (h : env.Output [w.e.jstatPath, mode, w.e.targetPid] = (out, none))
    (hl : secondLine out = some line) :
    report env mode reads w = readAll env (Fields line) reads (w.ran mode) := by
  unfold secondLine at hl
  simp only [report, h, hl]

/-- Every run of a report routine, however it ends, has set and collected the gauges of an
initial part of its table, each with the value parsed from its position, and has done nothing
else to the exporter and the channel; a failing run has stopped before the end of the
table. -/
theorem report_world {V : Type} (env : Env V) (mode : String) (reads : List (Nat × GaugeId))
    (w : World V) (hreads : reads ≠ []) :
    ∃ vs : List V, vs.length ≤ reads.length ∧
      (report env mode reads w).world = (w.ran mode).putAll ((reads.map Prod.snd).zip vs) ∧
      ((report env mode reads w).returned = false → vs.length < reads.length) ∧
      (∀ (i : Nat) (v : V), vs[i]? = some v →
        ∃ out line r, env.Output [w.e.jstatPath, mode, w.e.targetPid] = (out, none) ∧
          secondLine out = some line ∧ reads[i]? = some r ∧
          fieldValue env (Fields line) r.1 = some v) ∧
      ∀ (out line : List Char) (r : Nat × GaugeId),
        env.Output [w.e.jstatPath, mode, w.e.targetPid] = (out, none) →
        secondLine out = some line → reads[vs.length]? = some r →
        fieldValue env (Fields line) r.1 = none := by
  rcases hO : env.Output [w.e.jstatPath, mode, w.e.targetPid] with ⟨out, err⟩
  cases err with
  | some msg =>
    rw [report_of_error env mode reads w hO]
    refine ⟨[], Nat.zero_le _, by simp [Step.world, World.putAll], ?_, by simp, by simp⟩
    intro _
    exact List.length_pos.2 hreads
  | none =>
    cases hl : secondLine out with
    | none =>
      rw [report_of_no_line env mode reads w hO hl]
      refine ⟨[], Nat.zero_le _, by simp [Step.world, World.putAll],
        by simp [Step.returned], by simp, ?_⟩
      intro out' line' r h1 h2
      obtain ⟨rfl, _⟩ := Prod.mk.inj h1
      rw [hl] at h2
      cases h2
    | some line =>
      rw [report_of_line env mode reads w hO hl]
      refine ⟨readValues env (Fields line) reads, readValues_length_le _ _ _,
        readAll_world _ _ _ _, ?_, ?_, ?_⟩
      · intro hret
        have hle := readValues_length_le env (Fields line) reads
        have hne : (readValues env (Fields line) reads).length ≠ reads.length := by
          intro heq
          rw [(readAll_returned env (Fields line) reads (w.ran mode)).2 heq] at hret
          cases hret
        omega
      · intro i v hv
        obtain ⟨r, hr, hf⟩ := readValues_getElem env (Fields line) reads i v hv
        exact ⟨out, line, r, rfl, hl, hr, hf⟩
      · intro out' line' r h1 h2 hr
        obtain ⟨rfl, _⟩ := Prod.mk.inj h1
        rw [hl] at h2
        obtain rfl := Option.some.inj h2
        exact readValues_stop env (Fields line) reads r hr

theorem Mode.reads_ne_nil (m : Mode) : m.reads ≠ [] := by
  cases m <;> simp [Mode.reads, gccapacityReads, gcoldReads, gcnewReads, gcReads]

/-- The positions of a table are read in increasing order. -/
theorem Mode.reads_sorted (m : Mode) : m.reads.Pairwise (fun a b => a.1 < b.1) := by
  cases m <;> simp [Mode.reads, gccapacityReads, gcoldReads, gcnewReads, gcReads]

/-- The last position of the table of a mode is the number of fields needed, less one. -/
theorem Mode.needed_mem (m : Mode) : ∃ g, (m.needed - 1, g) ∈ m.reads ∧ 0 < m.needed := by
  cases m
  · exact ⟨.metaCommit, by simp [Mode.reads, Mode.needed, gccapacityReads]⟩
  · exact ⟨.oldUsed, by simp [Mode.reads, Mode.needed, gcoldReads]⟩
  · exact ⟨.edenUsed, by simp [Mode.reads, Mode.needed, gcnewReads]⟩
  · exact ⟨.fgcSec, by simp [Mode.reads, Mode.needed, gcReads]⟩

theorem Mode.reads_lt_needed (m : Mode) : ∀ r ∈ m.reads, r.1 < m.needed := by
  cases m <;> simp [Mode.reads, Mode.needed, gccapacityReads, gcoldReads, gcnewReads, gcReads]

theorem newSamples_of_append {V α : Type} (w : World V) (s : Step V α) (new : List (Sample V))
    (h : s.world.ch = w.ch ++ new) : newSamples w s = new := by
  unfold newSamples
  rw [h, List.drop_left]

/-- A report whose command fails, or whose second line lacks a parsing field at a position
of its table, fails, and the gauge of that position is neither set nor sent. -/
theorem report_stop {V : Type} (env : Env V) (mode : String) (reads : List (Nat × GaugeId))
    (w : World V) (out : List Char) (err : Option String) (line : List Char) (k : Nat)
    (g : GaugeId) (hnd : (reads.map Prod.snd).Nodup) (hmem : (k, g) ∈ reads)
    (hout : env.Output [w.e.jstatPath, mode, w.e.targetPid] = (out, err))
    (hline : secondLine out = some line) (hk : fieldValue env (Fields line) k = none) :
    (report env mode reads w).returned = false ∧
      (report env mode reads w).world.e.gauge g = w.e.gauge g ∧
      ∀ x ∈ newSamples w (report env mode reads w), x.id ≠ g := by
  cases err with
  | some msg =>
    rw [report_of_error env mode reads w hout]
    refine ⟨rfl, rfl, ?_⟩
    rw [newSamples_of_append w _ [] (by simp [Step.world, World.ran])]
    simp
  | none =>
    rw [report_of_line env mode reads w hout hline]
    obtain ⟨h1, h2, new, h3, h4⟩ :=
      readAll_stop env (Fields line) reads (w.ran mode) k g hnd hmem hk
    refine ⟨h1, h2, ?_⟩
    rw [newSamples_of_append w _ new h3]
    exact h4

/-- With the positions in increasing order, a field that is present and does not parse ends
the reading in `stdlog.Fatal`, not in a panic. -/
theorem readAll_fatal {V : Type} (env : Env V) (parts : List (List Char)) :
    ∀ (reads : List (Nat × GaugeId)) (w : World V) (k : Nat) (g : GaugeId) (f : List Char),
      reads.Pairwise (fun a b => a.1 < b.1) → (k, g) ∈ reads → parts[k]? = some f →
        env.ParseFloat f = none → ∃ w', readAll env parts reads w = .fatal w' := by
  intro reads
  induction reads with
  | nil => intro w k g f _ h; simp at h
  | cons r rest ih =>
    intro w k g f hs hmem hf hp; obtain ⟨k', g'⟩ := r
    rw [List.pairwise_cons] at hs
    rcases List.mem_cons.1 hmem with heq | hrest
    · obtain ⟨rfl, rfl⟩ := Prod.mk.inj heq
      exact ⟨w, by simp only [readAll, hf, hp]⟩
    · have hlt : k' < k := hs.1 (k, g) hrest
      have hklen : k < parts.length := by
        by_contra hge
        rw [List.getElem?_eq_none (Nat.le_of_not_lt hge)] at hf
        cases hf
      have hk' : parts[k']? = some (parts[k']) := List.getElem?_eq_getElem (by omega)
      cases hp' : env.ParseFloat (parts[k']) with
      | none => exact ⟨w, by simp only [readAll, hk', hp']⟩
      | some v =>
        obtain ⟨w', hw'⟩ := ih (w.put g' v) k g f hs.2 hrest hf hp
        exact ⟨w', by simp only [readAll, hk', hp']; exact hw'⟩

/-- Reading a table all of whose positions parse returns, with every gauge of the table set
and collected. -/
theorem readAll_ok {V : Type} (env : Env V) (parts : List (List Char)) (val : GaugeId → V) :
    ∀ (reads : List (Nat × GaugeId)) (w : World V),
      (∀ k g, (k, g) ∈ reads → fieldValue env parts k = some (val g)) →
        readAll env parts reads w = .ok () (w.putAll (reads.map fun r => (r.2, val r.2))) := by
  intro reads
  induction reads with
  | nil => intro w _; rfl
  | cons r rest ih =>
    intro w h; obtain ⟨k, g⟩ := r
    rw [readAll_cons_some env parts k g rest w (h k g (List.mem_cons_self _ _)),
      ih (w.put g (val g)) (fun k' g' hm => h k' g' (List.mem_cons_of_mem _ hm))]
    rfl

theorem report_ok {V : Type} (env : Env V) (mode : String) (reads : List (Nat × GaugeId))
    (w : World V) (val : GaugeId → V) (out line : List Char)
    (hout : env.Output [w.e.jstatPath, mode, w.e.targetPid] = (out, none))
    (hline : secondLine out = some line)
    (h : ∀ k g, (k, g) ∈ reads → fieldValue env (Fields line) k = some (val g)) :
    report env mode reads w =
      .ok () ((w.ran mode).putAll (reads.map fun r => (r.2, val r.2))) := by
  rw [report_of_line env mode reads w hout hline, readAll_ok env (Fields line) val reads _ h]

/-- The second line of an output without a line feed does not exist. -/
theorem secondLine_of_no_newline (out : List Char) (h : newline ∉ out) :
    secondLine out = none := by
  have hsplit : ∀ s : List Char, newline ∉ s → Split newline s = [s] := by
    intro s
    induction s with
    | nil => intro _; rfl
    | cons c cs ih =>
      intro hs
      simp only [List.mem_cons, not_or] at hs
      have hc : c ≠ newline := fun hc => hs.1 hc.symm
      simp only [Split, hc, if_false, ih hs.2]
  unfold secondLine
  rw [hsplit out h]
  rfl

/-- What a run of a report routine leaves untouched: the path, the pid, the names of the
gauges and the gauges outside its table; the run adds its command to the record. -/
theorem report_frame {V : Type} (env : Env V) (mode : String) (reads : List (Nat × GaugeId))
    (w : World V) (hreads : reads ≠ []) :
    (report env mode reads w).world.e.jstatPath = w.e.jstatPath ∧
      (report env mode reads w).world.e.targetPid = w.e.targetPid ∧
      (report env mode reads w).world.cmds = w.cmds ++ [[w.e.jstatPath, mode, w.e.targetPid]] ∧
      (∀ g, ((report env mode reads w).world.e.gauge g).fqName = (w.e.gauge g).fqName) ∧
      ∀ g, g ∉ reads.map Prod.snd → (report env mode reads w).world.e.gauge g = w.e.gauge g := by
  obtain ⟨vs, _, hw, _, _, _⟩ := report_world env mode reads w hreads
  rw [hw]
  refine ⟨putAll_jstatPath _ _, putAll_targetPid _ _, putAll_cmds _ _, ?_, ?_⟩
  · intro g; exact putAll_fqName _ _ g
  · intro g hg
    apply (putAll_gauge_of_not_mem _ _ g _).trans rfl
    intro hmem
    obtain ⟨⟨g', v⟩, hgv, rfl⟩ := List.mem_map.1 hmem
    exact hg (List.of_mem_zip hgv).1

/-! ## The claims -/

/-- C1. For every `-gccapacity` output whose second line (element 1 of the output split on
the line feed) has at least 13 fields, the fields at positions 1, 2, 7, 8, 11 and 12 parsing
as floats, `JstatGccapacity` returns, the gauges newMax, newCommit, oldMax, oldCommit,
metaMax and metaCommit hold the parsed values of these fields, and exactly these six gauges
were sent on the channel, in this order. -/
theorem C1_gccapacity_well_formed {V : Type} (env : Env V) (w : World V)
    (out line : List Char) (newMax newCommit oldMax oldCommit metaMax metaCommit : V)
    (hout : env.Output [w.e.jstatPath, "-gccapacity", w.e.targetPid] = (out, none))
    (hline : (Split newline out)[1]? = some line)
    (hlen : 13 ≤ (Fields line).length)
    (h1 : fieldValue env (Fields line) 1 = some newMax)
    (h2 : fieldValue env (Fields line) 2 = some newCommit)
    (h7 : fieldValue env (Fields line) 7 = some oldMax)
    (h8 : fieldValue env (Fields line) 8 = some oldCommit)
    (h11 : fieldValue env (Fields line) 11 = some metaMax)
    (h12 : fieldValue env (Fields line) 12 = some metaCommit) :
    ∃ w', JstatGccapacity env w = .ok () w' ∧
      w'.e.newMax = w.e.newMax.Set newMax ∧ w'.e.newMax.value = newMax ∧
      w'.e.newCommit = w.e.newCommit.Set newCommit ∧ w'.e.newCommit.value = newCommit ∧
      w'.e.oldMax = w.e.oldMax.Set oldMax ∧ w'.e.oldMax.value = oldMax ∧
      w'.e.oldCommit = w.e.oldCommit.Set oldCommit ∧ w'.e.oldCommit.value = oldCommit ∧
      w'.e.metaMax = w.e.metaMax.Set metaMax ∧ w'.e.metaMax.value = metaMax ∧
      w'.e.metaCommit = w.e.metaCommit.Set metaCommit ∧ w'.e.metaCommit.value = metaCommit ∧
      w'.ch = w.ch ++
        [{ id := .newMax, gauge := w'.e.newMax }, { id := .newCommit, gauge := w'.e.newCommit },
         { id := .oldMax, gauge := w'.e.oldMax }, { id := .oldCommit, gauge := w'.e.oldCommit },
         { id := .metaMax, gauge := w'.e.metaMax },
         { id := .metaCommit, gauge := w'.e.metaCommit }] := by
  have _ := hlen
  rw [JstatGccapacity_eq_report, report_of_line env _ _ w hout hline, gccapacityReads,
    readAll_cons_some env _ _ _ _ _ h1, readAll_cons_some env _ _ _ _ _ h2,
    readAll_cons_some env _ _ _ _ _ h7, readAll_cons_some env _ _ _ _ _ h8,
    readAll_cons_some env _ _ _ _ _ h11, readAll_cons_some env _ _ _ _ _ h12]
  refine ⟨_, rfl, ?_⟩
  simp [World.put, World.ran, Exporter.update, Exporter.gauge, Gauge.Set]

/-- C2. For every well-formed output of the other three modes the routine returns, sets each
of its gauges to the parsed value of the field at its position on the second line and sends
them in order: `JstatGcold` metaUsed from field 1 and oldUsed from field 5; `JstatGcnew`
sv0Used from field 2, sv1Used from field 3 and edenUsed from field 8; `JstatGc` fgcTimes from
field 14 and fgcSec from field 15. -/
theorem C2_other_modes_well_formed {V : Type} (env : Env V) (w : World V) :
    (∀ (out line : List Char) (metaUsed oldUsed : V),
      env.Output [w.e.jstatPath, "-gcold", w.e.targetPid] = (out, none) →
      (Split newline out)[1]? = some line →
      fieldValue env (Fields line) 1 = some metaUsed →
      fieldValue env (Fields line) 5 = some oldUsed →
      ∃ w', JstatGcold env w = .ok () w' ∧
        w'.e.metaUsed = w.e.metaUsed.Set metaUsed ∧ w'.e.metaUsed.value = metaUsed ∧
        w'.e.oldUsed = w.e.oldUsed.Set oldUsed ∧ w'.e.oldUsed.value = oldUsed ∧
        w'.ch = w.ch ++
          [{ id := .metaUsed, gauge := w'.e.metaUsed }, { id := .oldUsed, gauge := w'.e.oldUsed }]) ∧
    (∀ (out line : List Char) (sv0Used sv1Used edenUsed : V),
      env.Output [w.e.jstatPath, "-gcnew", w.e.targetPid] = (out, none) →
      (Split newline out)[1]? = some line →
      fieldValue env (Fields line) 2 = some sv0Used →
      fieldValue env (Fields line) 3 = some sv1Used →
      fieldValue env (Fields line) 8 = some edenUsed →
      ∃ w', JstatGcnew env w = .ok () w' ∧
        w'.e.sv0Used = w.e.sv0Used.Set sv0Used ∧ w'.e.sv0Used.value = sv0Used ∧
        w'.e.sv1Used = w.e.sv1Used.Set sv1Used ∧ w'.e.sv1Used.value = sv1Used ∧
        w'.e.edenUsed = w.e.edenUsed.Set edenUsed ∧ w'.e.edenUsed.value = edenUsed ∧
        w'.ch = w.ch ++
          [{ id := .sv0Used, gauge := w'.e.sv0Used }, { id := .sv1Used, gauge := w'.e.sv1Used },
           { id := .edenUsed, gauge := w'.e.edenUsed }]) ∧
    (∀ (out line : List Char) (fgcTimes fgcSec : V),
      env.Output [w.e.jstatPath, "-gc", w.e.targetPid] = (out, none) →
      (Split newline out)[1]? = some line →
      fieldValue env (Fields line) 14 = some fgcTimes →
      fieldValue env (Fields line) 15 = some fgcSec →
      ∃ w', JstatGc env w = .ok () w' ∧
        w'.e.fgcTimes = w.e.fgcTimes.Set fgcTimes ∧ w'.e.fgcTimes.value = fgcTimes ∧
        w'.e.fgcSec = w.e.fgcSec.Set fgcSec ∧ w'.e.fgcSec.value = fgcSec ∧
        w'.ch = w.ch ++
          [{ id := .fgcTimes, gauge := w'.e.fgcTimes }, { id := .fgcSec, gauge := w'.e.fgcSec }]) := by
  refine ⟨?_, ?_, ?_⟩
  · intro out line metaUsed oldUsed hout hline h1 h5
    rw [JstatGcold_eq_report, report_of_line env _ _ w hout hline, gcoldReads,
      readAll_cons_some env _ _ _ _ _ h1, readAll_cons_some env _ _ _ _ _ h5]
    refine ⟨_, rfl, ?_⟩
    simp [World.put, World.ran, Exporter.update, Exporter.gauge, Gauge.Set]
  · intro out line sv0Used sv1Used edenUsed hout hline h2 h3 h8
    rw [JstatGcnew_eq_report, report_of_line env _ _ w hout hline, gcnewReads,
      readAll_cons_some env _ _ _ _ _ h2, readAll_cons_some env _ _ _ _ _ h3,
      readAll_cons_some env _ _ _ _ _ h8]
    refine ⟨_, rfl, ?_⟩
    simp [World.put, World.ran, Exporter.update, Exporter.gauge, Gauge.Set]
  · intro out line fgcTimes fgcSec hout hline h14 h15
    rw [JstatGc_eq_report, report_of_line env _ _ w hout hline, gcReads,
      readAll_cons_some env _ _ _ _ _ h14, readAll_cons_some env _ _ _ _ _ h15]
    refine ⟨_, rfl, ?_⟩
    simp [World.put, World.ran, Exporter.update, Exporter.gauge, Gauge.Set]

/-- C3. For every report mode and every command output whose second line has fewer fields
than the routine needs (13 for `-gccapacity`, 6 for `-gcold`, 9 for `-gcnew`, 16 for `-gc`),
the routine does not return, and every gauge whose position is missing from the line keeps
the state it had (it is not set to zero nor to another field) and is not sent. -/
theorem C3_short_line_fails {V : Type} (env : Env V) (w : World V) (m : Mode)
    (out : List Char) (err : Option String) (line : List Char)
    (hout : env.Output [w.e.jstatPath, m.flag, w.e.targetPid] = (out, err))
    (hline : (Split newline out)[1]? = some line)
    (hshort : (Fields line).length < m.needed) :
    (m.run env w).returned = false ∧
      ∀ k g, (k, g) ∈ m.reads → (Fields line).length ≤ k →
        (m.run env w).world.e.gauge g = w.e.gauge g ∧
        ∀ x ∈ newSamples w (m.run env w), x.id ≠ g := by
  have hmissing : ∀ k, (Fields line).length ≤ k → fieldValue env (Fields line) k = none := by
    intro k hk
    simp only [fieldValue, List.getElem?_eq_none hk]
  rw [Mode.run_eq_report]
  constructor
  · obtain ⟨g, hg, hpos⟩ := m.needed_mem
    exact (report_stop env m.flag m.reads w out err line (m.needed - 1) g m.gauges_nodup hg
      hout hline (hmissing _ (by omega))).1
  · intro k g hmem hk
    exact (report_stop env m.flag m.reads w out err line k g m.gauges_nodup hmem hout hline
      (hmissing k hk)).2

/-- C4. For every report mode, if a field of the second line at a position the routine
reads does not parse as a float, the routine ends in `stdlog.Fatal`, and the gauge of that
position keeps the state it had: it is not set and not sent. -/
theorem C4_unparsable_field_fails {V : Type} (env : Env V) (w : World V) (m : Mode)
    (out : List Char) (err : Option String) (line : List Char) (k : Nat) (g : GaugeId)
    (f : List Char)
    (hout : env.Output [w.e.jstatPath, m.flag, w.e.targetPid] = (out, err))
    (hline : (Split newline out)[1]? = some line)
    (hmem : (k, g) ∈ m.reads)
    (hfield : (Fields line)[k]? = some f)
    (hparse : env.ParseFloat f = none) :
    (∃ w', m.run env w = .fatal w') ∧
      (m.run env w).world.e.gauge g = w.e.gauge g ∧
      ∀ x ∈ newSamples w (m.run env w), x.id ≠ g := by
  have hk : fieldValue env (Fields line) k = none := by
    simp only [fieldValue, hfield, hparse]
  rw [Mode.run_eq_report]
  refine ⟨?_, (report_stop env m.flag m.reads w out err line k g m.gauges_nodup hmem hout hline
    hk).2⟩
  cases err with
  | some msg => exact ⟨_, report_of_error env m.flag m.reads w hout⟩
  | none =>
    rw [report_of_line env m.flag m.reads w hout hline]
    exact readAll_fatal env (Fields line) m.reads (w.ran m.flag) k g f m.reads_sorted hmem
      hfield hparse

theorem map_fst_zip_take {α β : Type} :
    ∀ (l : List α) (vs : List β), (l.zip vs).map Prod.fst = l.take vs.length := by
  intro l
  induction l with
  | nil => intro vs; simp
  | cons a l ih =>
    intro vs
    cases vs with
    | nil => simp
    | cons v vs => simp [ih vs]

/-- C5, amended. A failing report routine has overwritten and sent exactly the gauges of
the positions it read before the failing one (the first position whose field is missing or
does not parse), in reading order and each with the value parsed from its field, and has
changed nothing else of the exporter and the channel; in particular nothing at all when the
first position it reads is missing or does not parse (or when the command failed). A failing
`Collect` is the failing run of one of its four routines, started in the state the routines
before it returned in. -/
theorem C5_failure_keeps_earlier_reads {V : Type} (env : Env V) (w : World V) :
    (∀ m : Mode, (m.run env w).returned = false →
      ∃ vs : List V, vs.length < m.reads.length ∧
        (m.run env w).world = (w.ran m.flag).putAll (m.gauges.zip vs) ∧
        (m.run env w).world.ch = w.ch ++ samplesOf w (m.gauges.zip vs) ∧
        (∀ g v, (g, v) ∈ m.gauges.zip vs →
          (m.run env w).world.e.gauge g = (w.e.gauge g).Set v) ∧
        (∀ g, g ∉ m.gauges.take vs.length → (m.run env w).world.e.gauge g = w.e.gauge g) ∧
        (∀ (i : Nat) (v : V), vs[i]? = some v →
          ∃ out line r, env.Output [w.e.jstatPath, m.flag, w.e.targetPid] = (out, none) ∧
            (Split newline out)[1]? = some line ∧ m.reads[i]? = some r ∧
            fieldValue env (Fields line) r.1 = some v) ∧
        (∀ (out line : List Char) (r : Nat × GaugeId),
          env.Output [w.e.jstatPath, m.flag, w.e.targetPid] = (out, none) →
          (Split newline out)[1]? = some line → m.reads[vs.length]? = some r →
          fieldValue env (Fields line) r.1 = none) ∧
        (vs = [] → (m.run env w).world.e = w.e ∧ (m.run env w).world.ch = w.ch)) ∧
    (∀ (m : Mode) (out line : List Char) (k : Nat) (g : GaugeId),
      env.Output [w.e.jstatPath, m.flag, w.e.targetPid] = (out, none) →
      (Split newline out)[1]? = some line → m.reads.head? = some (k, g) →
      fieldValue env (Fields line) k = none →
      (m.run env w).returned = false ∧ (m.run env w).world.e = w.e ∧
        (m.run env w).world.ch = w.ch) ∧
    ((Collect env w).returned = false →
      ((JstatGccapacity env w).returned = false ∧ Collect env w = JstatGccapacity env w) ∨
      (∃ w1, JstatGccapacity env w = .ok () w1 ∧ (JstatGcold env w1).returned = false ∧
        Collect env w = JstatGcold env w1) ∨
      (∃ w1 w2, JstatGccapacity env w = .ok () w1 ∧ JstatGcold env w1 = .ok () w2 ∧
        (JstatGcnew env w2).returned = false ∧ Collect env w = JstatGcnew env w2) ∨
      (∃ w1 w2 w3, JstatGccapacity env w = .ok () w1 ∧ JstatGcold env w1 = .ok () w2 ∧
        JstatGcnew env w2 = .ok () w3 ∧ (JstatGc env w3).returned = false ∧
        Collect env w = JstatGc env w3)) := by
  refine ⟨?_, ?_, ?_⟩
  · intro m hfail
    rw [Mode.run_eq_report] at hfail ⊢
    obtain ⟨vs, _, hw0, hlt, hvals, hstop⟩ := report_world env m.flag m.reads w m.reads_ne_nil
    have hw : (report env m.flag m.reads w).world = (w.ran m.flag).putAll (m.gauges.zip vs) :=
      hw0
    have hnd : ((m.gauges.zip vs).map Prod.fst).Nodup := by
      rw [map_fst_zip_take]
      exact m.gauges_nodup.sublist (List.take_sublist _ _)
    refine ⟨vs, hlt hfail, hw, ?_, ?_, ?_, hvals, hstop, ?_⟩
    · rw [hw, putAll_ch _ _ hnd]
      rfl
    · intro g v hgv
      rw [hw, putAll_gauge_of_mem _ _ g v hnd hgv]
      rfl
    · intro g hg
      rw [hw, putAll_gauge_of_not_mem _ _ g (by rw [map_fst_zip_take]; exact hg)]
      rfl
    · intro hvs
      rw [hw, hvs]
      simp [World.putAll, World.ran]
  · intro m out line k g hout hline hhead hk
    rw [Mode.run_eq_report, report_of_line env m.flag m.reads w hout hline]
    cases hreads : m.reads with
    | nil => rw [hreads] at hhead; simp at hhead
    | cons r rest =>
      rw [hreads] at hhead
      simp only [List.head?_cons, Option.some.injEq] at hhead
      subst hhead
      obtain ⟨h1, h2⟩ := readAll_cons_none env (Fields line) k g rest (w.ran m.flag) hk
      exact ⟨h1, by rw [h2]; rfl, by rw [h2]; rfl⟩
  · intro hfail
    rw [Collect_eq] at hfail ⊢
    rcases hs1 : JstatGccapacity env w with ⟨_, w1⟩ | w1 | w1
    · right
      rcases hs2 : JstatGcold env w1 with ⟨_, w2⟩ | w2 | w2
      · right
        rcases hs3 : JstatGcnew env w2 with ⟨_, w3⟩ | w3 | w3
        · right
          simp only [hs1, hs2, hs3] at hfail ⊢
          exact ⟨w1, w2, w3, rfl, hs2, hs3, hfail, rfl⟩
        · left; exact ⟨w1, w2, rfl, hs2, by simp [hs3, Step.returned], by simp [hs2, hs3]⟩
        · left; exact ⟨w1, w2, rfl, hs2, by simp [hs3, Step.returned], by simp [hs2, hs3]⟩
      · left; exact ⟨w1, rfl, by simp [hs2, Step.returned], by simp [hs2]⟩
      · left; exact ⟨w1, rfl, by simp [hs2, Step.returned], by simp [hs2]⟩
    · left; exact ⟨by simp [Step.returned], rfl⟩
    · left; exact ⟨by simp [Step.returned], rfl⟩

/-- C6. For every four well-formed command outputs, `Collect` returns after running the
reports in the order `-gccapacity`, `-gcold`, `-gcnew`, `-gc` and sends exactly 13 samples,
one for each of the 13 gauges in the order of the exporter, each gauge once; every sample is
the gauge as `Collect` leaves it, holding the value parsed for it, which is the value last
set on it. The gauge names are those given by `NewExporter`, which are pairwise distinct. -/
theorem C6_collect_sends_each_gauge_once {V : Type} (env : Env V) (w : World V)
    (val : GaugeId → V)
    (hwf : ∀ m : Mode, ∃ out line,
      env.Output [w.e.jstatPath, m.flag, w.e.targetPid] = (out, none) ∧
      (Split newline out)[1]? = some line ∧
      ∀ k g, (k, g) ∈ m.reads → fieldValue env (Fields line) k = some (val g)) :
    ∃ w', Collect env w = .ok () w' ∧
      w'.cmds = w.cmds ++
        [[w.e.jstatPath, "-gccapacity", w.e.targetPid], [w.e.jstatPath, "-gcold", w.e.targetPid],
         [w.e.jstatPath, "-gcnew", w.e.targetPid], [w.e.jstatPath, "-gc", w.e.targetPid]] ∧
      w'.ch = w.ch ++ allGauges.map (fun g => { id := g, gauge := w'.e.gauge g }) ∧
      (∀ g, w'.e.gauge g = (w.e.gauge g).Set (val g)) ∧
      (∀ g, (w'.e.gauge g).value = val g) ∧
      allGauges.length = 13 ∧ allGauges.Nodup ∧ (∀ g : GaugeId, g ∈ allGauges) ∧
      Describe w'.e = Describe w.e ∧
      ∀ (zero : Zero V) (jstatPath targetPid : String),
        (Describe (@NewExporter V zero jstatPath targetPid)).Nodup := by
  have hrun : ∀ (m : Mode) (w0 : World V), w0.e.jstatPath = w.e.jstatPath →
      w0.e.targetPid = w.e.targetPid →
        m.run env w0 = .ok () ((w0.ran m.flag).putAll (m.reads.map fun r => (r.2, val r.2))) := by
    intro m w0 hj hp
    obtain ⟨out, line, hout, hline, hv⟩ := hwf m
    rw [Mode.run_eq_report]
    exact report_ok env m.flag m.reads w0 val out line (by rw [hj, hp]; exact hout) hline hv
  have hkeep : ∀ (w0 : World V) (flag : String) (l : List (GaugeId × V)),
      w0.e.jstatPath = w.e.jstatPath → w0.e.targetPid = w.e.targetPid →
        ((w0.ran flag).putAll l).e.jstatPath = w.e.jstatPath ∧
          ((w0.ran flag).putAll l).e.targetPid = w.e.targetPid := by
    intro w0 flag l hj hp
    exact ⟨(putAll_jstatPath l _).trans hj, (putAll_targetPid l _).trans hp⟩
  have h1 := hrun .gccapacity w rfl rfl
  obtain ⟨j1, p1⟩ := hkeep w Mode.gccapacity.flag
    (Mode.gccapacity.reads.map fun r => (r.2, val r.2)) rfl rfl
  have h2 := hrun .gcold _ j1 p1
  obtain ⟨j2, p2⟩ := hkeep _ Mode.gcold.flag
    (Mode.gcold.reads.map fun r => (r.2, val r.2)) j1 p1
  have h3 := hrun .gcnew _ j2 p2
  obtain ⟨j3, p3⟩ := hkeep _ Mode.gcnew.flag
    (Mode.gcnew.reads.map fun r => (r.2, val r.2)) j2 p2
  have h4 := hrun .gc _ j3 p3
  simp only [Mode.run] at h1 h2 h3 h4
  rw [Collect_eq, h1]
  simp only [h2, h3, h4]
  refine ⟨_, rfl, ?_, ?_, ?_, ?_, rfl, by decide, ?_, ?_, ?_⟩
  · simp [Mode.reads, Mode.flag, gccapacityReads, gcoldReads, gcnewReads, gcReads,
      World.putAll, World.put, World.ran, Exporter.update]
  · simp [Mode.reads, Mode.flag, gccapacityReads, gcoldReads, gcnewReads, gcReads,
      World.putAll, World.put, World.ran, Exporter.update, Exporter.gauge, Gauge.Set, allGauges]
  · intro g
    cases g <;>
      simp [Mode.reads, Mode.flag, gccapacityReads, gcoldReads, gcnewReads, gcReads,
        World.putAll, World.put, World.ran, Exporter.update, Exporter.gauge, Gauge.Set]
  · intro g
    cases g <;>
      simp [Mode.reads, Mode.flag, gccapacityReads, gcoldReads, gcnewReads, gcReads,
        World.putAll, World.put, World.ran, Exporter.update, Exporter.gauge, Gauge.Set]
  · intro g; cases g <;> decide
  · simp [Mode.reads, Mode.flag, gccapacityReads, gcoldReads, gcnewReads, gcReads,
      World.putAll, World.put, World.ran, Exporter.update, Gauge.Set, Describe]
  · intro zero jstatPath targetPid
    have hnames : Describe (@NewExporter V zero jstatPath targetPid) =
        ["jstat_newMax", "jstat_newCommit", "jstat_oldMax", "jstat_oldCommit", "jstat_metaMax",
         "jstat_metaCommit", "jstat_metaUsed", "jstat_oldUsed", "jstat_sv0Used", "jstat_sv1Used",
         "jstat_edenUsed", "jstat_fgcTimes", "jstat_fgcSec"] := by
      simp only [Describe, NewExporter, NewGauge]
      decide
    rw [hnames]
    decide

/-- C7. Each gauge is written by exactly one routine: whatever the state and the output, the
routine of a mode changes no gauge outside its own (newMax, newCommit, oldMax, oldCommit,
metaMax, metaCommit for `-gccapacity`; metaUsed, oldUsed for `-gcold`; sv0Used, sv1Used,
edenUsed for `-gcnew`; fgcTimes, fgcSec for `-gc`), every gauge belongs to exactly one mode,
and neither a routine nor `Collect` changes `jstatPath` or `targetPid`. -/
theorem C7_each_gauge_one_routine {V : Type} (env : Env V) (w : World V) :
    (∀ (m : Mode) (g : GaugeId), g ∉ m.gauges →
      (m.run env w).world.e.gauge g = w.e.gauge g) ∧
    (∀ m : Mode, (m.run env w).world.e.jstatPath = w.e.jstatPath ∧
      (m.run env w).world.e.targetPid = w.e.targetPid) ∧
    ((Collect env w).world.e.jstatPath = w.e.jstatPath ∧
      (Collect env w).world.e.targetPid = w.e.targetPid) ∧
    Mode.gccapacity.gauges =
      [.newMax, .newCommit, .oldMax, .oldCommit, .metaMax, .metaCommit] ∧
    Mode.gcold.gauges = [.metaUsed, .oldUsed] ∧
    Mode.gcnew.gauges = [.sv0Used, .sv1Used, .edenUsed] ∧
    Mode.gc.gauges = [.fgcTimes, .fgcSec] ∧
    (∀ m m' : Mode, m ≠ m' → ∀ g, g ∈ m.gauges → g ∉ m'.gauges) ∧
    (∀ g : GaugeId, ∃ m : Mode, g ∈ m.gauges) ∧
    allGauges.length = 13 ∧ ∀ g : GaugeId, g ∈ allGauges := by
  have hpaths : ∀ (m : Mode) (w0 : World V),
      (m.run env w0).world.e.jstatPath = w0.e.jstatPath ∧
        (m.run env w0).world.e.targetPid = w0.e.targetPid := by
    intro m w0
    rw [Mode.run_eq_report]
    obtain ⟨h1, h2, _⟩ := report_frame env m.flag m.reads w0 m.reads_ne_nil
    exact ⟨h1, h2⟩
  refine ⟨?_, fun m => hpaths m w, ?_, rfl, rfl, rfl, rfl, ?_, ?_, rfl, ?_⟩
  · intro m g hg
    rw [Mode.run_eq_report]
    exact (report_frame env m.flag m.reads w m.reads_ne_nil).2.2.2.2 g hg
  · rw [Collect_eq]
    have h1 := hpaths .gccapacity w
    simp only [Mode.run] at h1
    rcases hs1 : JstatGccapacity env w with ⟨_, w1⟩ | w1 | w1 <;> rw [hs1] at h1 <;>
      simp only [Step.world] at h1 ⊢ <;> try exact h1
    have h2 := hpaths .gcold w1
    simp only [Mode.run] at h2
    rcases hs2 : JstatGcold env w1 with ⟨_, w2⟩ | w2 | w2 <;> rw [hs2] at h2 <;>
      simp only [Step.world] at h2 ⊢ <;> try exact ⟨h2.1.trans h1.1, h2.2.trans h1.2⟩
    have h3 := hpaths .gcnew w2
    simp only [Mode.run] at h3
    rcases hs3 : JstatGcnew env w2 with ⟨_, w3⟩ | w3 | w3 <;> rw [hs3] at h3 <;>
      simp only [Step.world] at h3 ⊢ <;>
      try exact ⟨h3.1.trans (h2.1.trans h1.1), h3.2.trans (h2.2.trans h1.2)⟩
    have h4 := hpaths .gc w3
    simp only [Mode.run] at h4
    exact ⟨h4.1.trans (h3.1.trans (h2.1.trans h1.1)), h4.2.trans (h3.2.trans (h2.2.trans h1.2))⟩
  · intro m m' hne g
    cases m <;> cases m' <;> first | exact absurd rfl hne | (cases g <;> decide)
  · intro g
    cases g
    · exact ⟨.gccapacity, by decide⟩
    · exact ⟨.gccapacity, by decide⟩
    · exact ⟨.gccapacity, by decide⟩
    · exact ⟨.gccapacity, by decide⟩
    · exact ⟨.gccapacity, by decide⟩
    · exact ⟨.gccapacity, by decide⟩
    · exact ⟨.gcold, by decide⟩
    · exact ⟨.gcold, by decide⟩
    · exact ⟨.gcnew, by decide⟩
    · exact ⟨.gcnew, by decide⟩
    · exact ⟨.gcnew, by decide⟩
    · exact ⟨.gc, by decide⟩
    · exact ⟨.gc, by decide⟩
  · intro g; cases g <;> decide

/-- C8. For every report mode, if the command returns an error then, whatever it printed,
the routine ends in `stdlog.Fatal` right after the command: no gauge is changed and nothing
is sent; and `Collect` ends there too, running none of the later reports (the record of
commands ends with the failing one). -/
theorem C8_command_error_is_fatal {V : Type} (env : Env V) :
    (∀ (m : Mode) (w : World V) (out : List Char) (msg : String),
      env.Output [w.e.jstatPath, m.flag, w.e.targetPid] = (out, some msg) →
      m.run env w = .fatal (w.ran m.flag) ∧ (w.ran m.flag).e = w.e ∧
        (w.ran m.flag).ch = w.ch ∧
        (w.ran m.flag).cmds = w.cmds ++ [[w.e.jstatPath, m.flag, w.e.targetPid]]) ∧
    (∀ (w : World V) (out : List Char) (msg : String),
      env.Output [w.e.jstatPath, "-gccapacity", w.e.targetPid] = (out, some msg) →
      Collect env w = .fatal (w.ran "-gccapacity")) ∧
    (∀ (w w1 : World V) (out : List Char) (msg : String),
      JstatGccapacity env w = .ok () w1 →
      env.Output [w1.e.jstatPath, "-gcold", w1.e.targetPid] = (out, some msg) →
      Collect env w = .fatal (w1.ran "-gcold")) ∧
    (∀ (w w1 w2 : World V) (out : List Char) (msg : String),
      JstatGccapacity env w = .ok () w1 → JstatGcold env w1 = .ok () w2 →
      env.Output [w2.e.jstatPath, "-gcnew", w2.e.targetPid] = (out, some msg) →
      Collect env w = .fatal (w2.ran "-gcnew")) ∧
    (∀ (w w1 w2 w3 : World V) (out : List Char) (msg : String),
      JstatGccapacity env w = .ok () w1 → JstatGcold env w1 = .ok () w2 →
      JstatGcnew env w2 = .ok () w3 →
      env.Output [w3.e.jstatPath, "-gc", w3.e.targetPid] = (out, some msg) →
      Collect env w = .fatal (w3.ran "-gc")) := by
  have hrun : ∀ (m : Mode) (w : World V) (out : List Char) (msg : String),
      env.Output [w.e.jstatPath, m.flag, w.e.targetPid] = (out, some msg) →
        m.run env w = .fatal (w.ran m.flag) := by
    intro m w out msg h
    rw [Mode.run_eq_report, report_of_error env m.flag m.reads w h]
  refine ⟨fun m w out msg h => ⟨hrun m w out msg h, rfl, rfl, rfl⟩, ?_, ?_, ?_, ?_⟩
  · intro w out msg h
    have h1 : JstatGccapacity env w = .fatal (w.ran "-gccapacity") := hrun .gccapacity w out msg h
    rw [Collect_eq, h1]
  · intro w w1 out msg hs1 h
    have h2 : JstatGcold env w1 = .fatal (w1.ran "-gcold") := hrun .gcold w1 out msg h
    rw [Collect_eq, hs1]
    simp only [h2]
  · intro w w1 w2 out msg hs1 hs2 h
    have h3 : JstatGcnew env w2 = .fatal (w2.ran "-gcnew") := hrun .gcnew w2 out msg h
    rw [Collect_eq, hs1]
    simp only [hs2, h3]
  · intro w w1 w2 w3 out msg hs1 hs2 hs3 h
    have h4 : JstatGc env w3 = .fatal (w3.ran "-gc") := hrun .gc w3 out msg h
    rw [Collect_eq, hs1]
    simp only [hs2, hs3, h4]

/-- C9. For every report routine, when the command succeeds and its output has no line feed
(empty output, or a header row alone), the routine returns, sends nothing and leaves every
gauge as it was. -/
theorem C9_no_second_line_returns {V : Type} (env : Env V) (w : World V) (m : Mode)
    (out : List Char)
    (hout : env.Output [w.e.jstatPath, m.flag, w.e.targetPid] = (out, none))
    (hnl : newline ∉ out) :
    ∃ w', m.run env w = .ok () w' ∧ w'.e = w.e ∧ w'.ch = w.ch := by
  refine ⟨w.ran m.flag, ?_, rfl, rfl⟩
  rw [Mode.run_eq_report,
    report_of_no_line env m.flag m.reads w hout (secondLine_of_no_newline out hnl)]

/-- C10. For every report routine the step taken depends only on the fields at the read
positions of the second line: two outputs of the command (with the same error status) whose
second lines both have the fields the routine needs and carry the same fields at the read
positions give the same step from the same state and parser, whatever the header, the later
lines, the other fields and the fields beyond the last one read. -/
theorem C10_only_read_fields_matter {V : Type} (env1 env2 : Env V) (w : World V) (m : Mode)
    (out1 out2 : List Char) (err1 err2 : Option String) (line1 line2 : List Char)
    (hparse : env1.ParseFloat = env2.ParseFloat)
    (hout1 : env1.Output [w.e.jstatPath, m.flag, w.e.targetPid] = (out1, err1))
    (hout2 : env2.Output [w.e.jstatPath, m.flag, w.e.targetPid] = (out2, err2))
    (herr : err1.isSome = err2.isSome)
    (hline1 : (Split newline out1)[1]? = some line1)
    (hline2 : (Split newline out2)[1]? = some line2)
    (hlen1 : m.needed ≤ (Fields line1).length)
    (hlen2 : m.needed ≤ (Fields line2).length)
    (hagree : ∀ k g, (k, g) ∈ m.reads → (Fields line1)[k]? = (Fields line2)[k]?) :
    m.run env1 w = m.run env2 w := by
  have _ := hlen1
  have _ := hlen2
  rw [Mode.run_eq_report, Mode.run_eq_report]
  cases err1 with
  | some msg1 =>
    cases err2 with
    | none => simp at herr
    | some msg2 =>
      rw [report_of_error env1 m.flag m.reads w hout1, report_of_error env2 m.flag m.reads w hout2]
  | none =>
    cases err2 with
    | some msg2 => simp at herr
    | none =>
      rw [report_of_line env1 m.flag m.reads w hout1 hline1,
        report_of_line env2 m.flag m.reads w hout2 hline2,
        readAll_congr env1 (Fields line1) (Fields line2) m.reads _
          (fun r hr => hagree r.1 r.2 hr)]
      have hpf : ∀ (parts : List (List Char)) (reads : List (Nat × GaugeId)) (w0 : World V),
          readAll env1 parts reads w0 = readAll env2 parts reads w0 := by
        intro parts reads
        induction reads with
        | nil => intro w0; rfl
        | cons r rest ih =>
          intro w0; obtain ⟨k, g⟩ := r
          simp only [readAll, hparse, ih]
      exact hpf _ _ _

/-! ## The claims on the sample reports -/

set_option maxRecDepth 4000 in
theorem capacityReport_second : (Split newline capacityReport)[1]? = some capacityLine := by
  decide

set_option maxRecDepth 4000 in
theorem oldReport_second : (Split newline oldReport)[1]? = some oldLine := by
  decide

set_option maxRecDepth 4000 in
theorem newReport_second : (Split newline newReport)[1]? = some newLine := by
  decide

set_option maxRecDepth 4000 in
theorem gcReport_second : (Split newline gcReport)[1]? = some gcLine := by
  decide

theorem sample_fields (m : Mode) :
    ∃ out line, sampleEnv.Output [freshWorld.e.jstatPath, m.flag, freshWorld.e.targetPid] =
        (out, none) ∧ (Split newline out)[1]? = some line ∧
      ∀ k g, (k, g) ∈ m.reads → fieldValue sampleEnv (Fields line) k = some (sampleValues g) := by
  cases m
  · refine ⟨capacityReport, capacityLine, rfl, capacityReport_second, ?_⟩
    intro k g h
    simp only [Mode.reads, gccapacityReads, List.mem_cons, Prod.mk.injEq, List.not_mem_nil,
      or_false] at h
    rcases h with ⟨rfl, rfl⟩ | ⟨rfl, rfl⟩ | ⟨rfl, rfl⟩ | ⟨rfl, rfl⟩ | ⟨rfl, rfl⟩ | ⟨rfl, rfl⟩ <;>
      decide
  · refine ⟨oldReport, oldLine, rfl, oldReport_second, ?_⟩
    intro k g h
    simp only [Mode.reads, gcoldReads, List.mem_cons, Prod.mk.injEq, List.not_mem_nil,
      or_false] at h
    rcases h with ⟨rfl, rfl⟩ | ⟨rfl, rfl⟩ <;> decide
  · refine ⟨newReport, newLine, rfl, newReport_second, ?_⟩
    intro k g h
    simp only [Mode.reads, gcnewReads, List.mem_cons, Prod.mk.injEq, List.not_mem_nil,
      or_false] at h
    rcases h with ⟨rfl, rfl⟩ | ⟨rfl, rfl⟩ | ⟨rfl, rfl⟩ <;> decide
  · refine ⟨gcReport, gcLine, rfl, gcReport_second, ?_⟩
    intro k g h
    simp only [Mode.reads, gcReads, List.mem_cons, Prod.mk.injEq, List.not_mem_nil,
      or_false] at h
    rcases h with ⟨rfl, rfl⟩ | ⟨rfl, rfl⟩ <;> decide

theorem C1_witness :
    sampleEnv.Output [freshWorld.e.jstatPath, "-gccapacity", freshWorld.e.targetPid] =
        (capacityReport, none) ∧
      (Split newline capacityReport)[1]? = some capacityLine ∧
      13 ≤ (Fields capacityLine).length ∧
      fieldValue sampleEnv (Fields capacityLine) 1 = some { digits := 1602560, scale := 1 } ∧
      fieldValue sampleEnv (Fields capacityLine) 2 = some { digits := 102400, scale := 1 } ∧
      fieldValue sampleEnv (Fields capacityLine) 7 = some { digits := 3205120, scale := 1 } ∧
      fieldValue sampleEnv (Fields capacityLine) 8 = some { digits := 204800, scale := 1 } ∧
      fieldValue sampleEnv (Fields capacityLine) 11 = some { digits := 10567680, scale := 1 } ∧
      fieldValue sampleEnv (Fields capacityLine) 12 = some { digits := 48640, scale := 1 } ∧
      ∃ w', JstatGccapacity sampleEnv freshWorld = .ok () w' ∧
        w'.e.newMax.value = { digits := 1602560, scale := 1 } ∧
        w'.e.newCommit.value = { digits := 102400, scale := 1 } ∧
        w'.e.oldMax.value = { digits := 3205120, scale := 1 } ∧
        w'.e.oldCommit.value = { digits := 204800, scale := 1 } ∧
        w'.e.metaMax.value = { digits := 10567680, scale := 1 } ∧
        w'.e.metaCommit.value = { digits := 48640, scale := 1 } ∧
        w'.ch.map Sample.id =
          [.newMax, .newCommit, .oldMax, .oldCommit, .metaMax, .metaCommit] := by
  refine ⟨rfl, capacityReport_second, by decide, by decide, by decide, by decide, by decide,
    by decide, by decide, ?_⟩
  obtain ⟨w', hw, _, h1, _, h2, _, h7, _, h8, _, h11, _, h12, hch⟩ :=
    C1_gccapacity_well_formed sampleEnv freshWorld capacityReport capacityLine
      { digits := 1602560, scale := 1 } { digits := 102400, scale := 1 }
      { digits := 3205120, scale := 1 } { digits := 204800, scale := 1 }
      { digits := 10567680, scale := 1 } { digits := 48640, scale := 1 }
      rfl capacityReport_second (by decide) (by decide) (by decide) (by decide) (by decide)
      (by decide) (by decide)
  exact ⟨w', hw, h1, h2, h7, h8, h11, h12, by rw [hch]; rfl⟩

theorem C2_witness :
    (∃ w', JstatGcold sampleEnv freshWorld = .ok () w' ∧
      w'.e.metaUsed.value = { digits := 26275, scale := 1 } ∧
      w'.e.oldUsed.value = { digits := 0, scale := 1 } ∧
      w'.ch.map Sample.id = [.metaUsed, .oldUsed]) ∧
    (∃ w', JstatGcnew sampleEnv freshWorld = .ok () w' ∧
      w'.e.sv0Used.value = { digits := 0, scale := 1 } ∧
      w'.e.sv1Used.value = { digits := 10080, scale := 1 } ∧
      w'.e.edenUsed.value = { digits := 32709, scale := 1 } ∧
      w'.ch.map Sample.id = [.sv0Used, .sv1Used, .edenUsed]) ∧
    (∃ w', JstatGc sampleEnv freshWorld = .ok () w' ∧
      w'.e.fgcTimes.value = { digits := 0, scale := 0 } ∧
      w'.e.fgcSec.value = { digits := 0, scale := 3 } ∧
      w'.ch.map Sample.id = [.fgcTimes, .fgcSec]) := by
  obtain ⟨hold, hnew, hgc⟩ := C2_other_modes_well_formed sampleEnv freshWorld
  refine ⟨?_, ?_, ?_⟩
  · obtain ⟨w', hw, _, h1, _, h5, hch⟩ :=
      hold oldReport oldLine { digits := 26275, scale := 1 } { digits := 0, scale := 1 }
        rfl oldReport_second (by decide) (by decide)
    exact ⟨w', hw, h1, h5, by rw [hch]; rfl⟩
  · obtain ⟨w', hw, _, h2, _, h3, _, h8, hch⟩ :=
      hnew newReport newLine { digits := 0, scale := 1 } { digits := 10080, scale := 1 }
        { digits := 32709, scale := 1 } rfl newReport_second (by decide) (by decide) (by decide)
    exact ⟨w', hw, h2, h3, h8, by rw [hch]; rfl⟩
  · obtain ⟨w', hw, _, h14, _, h15, hch⟩ :=
      hgc gcReport gcLine { digits := 0, scale := 0 } { digits := 0, scale := 3 }
        rfl gcReport_second (by decide) (by decide)
    exact ⟨w', hw, h14, h15, by rw [hch]; rfl⟩

theorem C3_witness :
    shortOldEnv.Output
        [freshWorld.e.jstatPath, Mode.gcold.flag, freshWorld.e.targetPid] =
        (shortOldReport, none) ∧
      (Split newline shortOldReport)[1]? = some shortOldLine ∧
      (Fields shortOldLine).length < Mode.gcold.needed ∧
      (JstatGcold shortOldEnv freshWorld).returned = false ∧
      (JstatGcold shortOldEnv freshWorld).world.e.oldUsed =
        freshWorld.e.oldUsed := by
  have h := C3_short_line_fails shortOldEnv freshWorld .gcold
    shortOldReport none shortOldLine rfl (by decide) (by decide)
  exact ⟨rfl, by decide, by decide, h.1, (h.2 5 .oldUsed (by decide) (by decide)).1⟩

theorem C4_witness :
    dashOldEnv.Output
        [freshWorld.e.jstatPath, Mode.gcold.flag, freshWorld.e.targetPid] =
        (dashOldReport, none) ∧
      (Split newline dashOldReport)[1]? = some dashOldLine ∧
      (5, GaugeId.oldUsed) ∈ Mode.gcold.reads ∧
      (Fields dashOldLine)[5]? = some "-".toList ∧
      parseDecimal "-".toList = none ∧
      (∃ w', JstatGcold dashOldEnv freshWorld = .fatal w') ∧
      (JstatGcold dashOldEnv freshWorld).world.e.oldUsed =
        freshWorld.e.oldUsed := by
  have h := C4_unparsable_field_fails dashOldEnv freshWorld .gcold
    dashOldReport none dashOldLine 5 .oldUsed "-".toList rfl (by decide) (by decide) (by decide)
    (by decide)
  exact ⟨rfl, by decide, by decide, by decide, by decide, h.1, h.2.1⟩

/-- The run of `JstatGcold` on the report with a dash for OU: metaUsed is set and sent, then
the routine ends in `stdlog.Fatal`. -/
theorem dashOld_step :
    JstatGcold dashOldEnv freshWorld =
      .fatal ((freshWorld.ran "-gcold").put .metaUsed { digits := 26275, scale := 1 }) := by
  have h1 : fieldValue dashOldEnv (Fields dashOldLine) 1 = some { digits := 26275, scale := 1 } := by
    decide
  have h5 : (Fields dashOldLine)[5]? = some "-".toList := by decide
  have hp : dashOldEnv.ParseFloat "-".toList = none := by decide
  rw [JstatGcold_eq_report,
    report_of_line dashOldEnv "-gcold" gcoldReads freshWorld
      (show dashOldEnv.Output [freshWorld.e.jstatPath, "-gcold", freshWorld.e.targetPid] =
        (dashOldReport, none) from rfl)
      (show secondLine dashOldReport = some dashOldLine by decide),
    gcoldReads, readAll_cons_some dashOldEnv _ _ _ _ _ h1]
  simp only [readAll, h5, hp]

/-- C5 fails as stated: on a `-gcold` report whose field OU is a dash, `JstatGcold` fails
after it has overwritten the gauge metaUsed and sent it on the channel. -/
theorem C5_counterexample :
    (JstatGcold dashOldEnv freshWorld).returned = false ∧
      freshWorld.e.metaUsed.value = { digits := 0, scale := 0 } ∧
      (JstatGcold dashOldEnv freshWorld).world.e.metaUsed.value =
        { digits := 26275, scale := 1 } ∧
      (JstatGcold dashOldEnv freshWorld).world.e ≠ freshWorld.e ∧
      freshWorld.ch = [] ∧
      (JstatGcold dashOldEnv freshWorld).world.ch =
        [{ id := .metaUsed,
           gauge := { fqName := "jstat_metaUsed", help := "metaUsed",
                      value := { digits := 26275, scale := 1 } } }] ∧
      (JstatGcold dashOldEnv freshWorld).world.ch ≠ freshWorld.ch := by
  rw [dashOld_step]
  refine ⟨rfl, rfl, rfl, ?_, rfl, rfl, ?_⟩
  · intro h
    have hv := congrArg (fun e => e.metaUsed.value.digits) h
    revert hv
    decide
  · intro h
    have hl := congrArg List.length h
    revert hl
    decide

theorem C5_witness :
    (Mode.gcold.run dashOldEnv freshWorld).returned = false ∧
      ∃ vs : List Decimal, vs.length < Mode.gcold.reads.length ∧
        (Mode.gcold.run dashOldEnv freshWorld).world =
          (freshWorld.ran Mode.gcold.flag).putAll (Mode.gcold.gauges.zip vs) ∧
        (Mode.gcold.run dashOldEnv freshWorld).world.ch =
          freshWorld.ch ++ samplesOf freshWorld (Mode.gcold.gauges.zip vs) := by
  have hfail : (Mode.gcold.run dashOldEnv freshWorld).returned = false := by
    show (JstatGcold dashOldEnv freshWorld).returned = false
    rw [dashOld_step]
    rfl
  obtain ⟨vs, h1, h2, h3, _⟩ :=
    (C5_failure_keeps_earlier_reads dashOldEnv freshWorld).1 .gcold hfail
  exact ⟨hfail, vs, h1, h2, h3⟩

theorem C6_witness :
    (∀ m : Mode, ∃ out line,
      sampleEnv.Output [freshWorld.e.jstatPath, m.flag, freshWorld.e.targetPid] = (out, none) ∧
      (Split newline out)[1]? = some line ∧
      ∀ k g, (k, g) ∈ m.reads → fieldValue sampleEnv (Fields line) k = some (sampleValues g)) ∧
    ∃ w', Collect sampleEnv freshWorld = .ok () w' ∧
      w'.cmds = [["/usr/bin/jstat", "-gccapacity", "4242"], ["/usr/bin/jstat", "-gcold", "4242"],
        ["/usr/bin/jstat", "-gcnew", "4242"], ["/usr/bin/jstat", "-gc", "4242"]] ∧
      w'.ch = allGauges.map (fun g => { id := g, gauge := w'.e.gauge g }) ∧
      ∀ g, (w'.e.gauge g).value = sampleValues g := by
  refine ⟨sample_fields, ?_⟩
  obtain ⟨w', hw, hcmds, hch, _, hval, _⟩ :=
    C6_collect_sends_each_gauge_once sampleEnv freshWorld sampleValues sample_fields
  exact ⟨w', hw, hcmds, hch, hval⟩

theorem C7_witness :
    GaugeId.newMax ∉ Mode.gcold.gauges ∧
      (JstatGcold sampleEnv freshWorld).world.e.gauge .newMax = freshWorld.e.gauge .newMax :=
  ⟨by decide, (C7_each_gauge_one_routine sampleEnv freshWorld).1 .gcold .newMax (by decide)⟩

theorem C8_witness :
    failingEnv.Output [freshWorld.e.jstatPath, Mode.gcnew.flag, freshWorld.e.targetPid] =
        (oldReport, some "exit status 1") ∧
      JstatGcnew failingEnv freshWorld = .fatal (freshWorld.ran "-gcnew") ∧
      Collect failingEnv freshWorld = .fatal (freshWorld.ran "-gccapacity") ∧
      ∃ w1, JstatGccapacity halfFailingEnv freshWorld = .ok () w1 ∧
        Collect halfFailingEnv freshWorld = .fatal (w1.ran "-gcold") := by
  refine ⟨rfl, ((C8_command_error_is_fatal failingEnv).1 .gcnew freshWorld oldReport
    "exit status 1" rfl).1, (C8_command_error_is_fatal failingEnv).2.1 freshWorld oldReport
    "exit status 1" rfl, ?_⟩
  have h1 := report_ok halfFailingEnv "-gccapacity" gccapacityReads freshWorld sampleValues
    capacityReport capacityLine rfl capacityReport_second (by
      intro k g h
      simp only [gccapacityReads, List.mem_cons, Prod.mk.injEq, List.not_mem_nil,
        or_false] at h
      rcases h with ⟨rfl, rfl⟩ | ⟨rfl, rfl⟩ | ⟨rfl, rfl⟩ | ⟨rfl, rfl⟩ | ⟨rfl, rfl⟩ | ⟨rfl, rfl⟩ <;>
        decide)
  rw [← JstatGccapacity_eq_report] at h1
  refine ⟨_, h1, ?_⟩
  exact (C8_command_error_is_fatal halfFailingEnv).2.2.1 freshWorld _ [] "exit status 1" h1
    (by
      rw [putAll_jstatPath, putAll_targetPid]
      rfl)

theorem C9_witness :
    headerEnv.Output [freshWorld.e.jstatPath, Mode.gcold.flag, freshWorld.e.targetPid] =
        (headerOnly, none) ∧
      newline ∉ headerOnly ∧
      ∃ w', JstatGcold headerEnv freshWorld = .ok () w' ∧ w'.e = freshWorld.e ∧
        w'.ch = freshWorld.ch :=
  ⟨rfl, by decide,
    C9_no_second_line_returns headerEnv freshWorld .gcold headerOnly rfl (by decide)⟩

theorem C10_witness :
    (Split newline oldReport)[1]? = some oldLine ∧
      (Split newline otherOldReport)[1]? = some otherOldLine ∧
      oldLine ≠ otherOldLine ∧
      (Fields oldLine)[1]? = (Fields otherOldLine)[1]? ∧
      (Fields oldLine)[5]? = (Fields otherOldLine)[5]? ∧
      JstatGcold sampleEnv freshWorld = JstatGcold otherOldEnv freshWorld := by
  refine ⟨oldReport_second, by decide, by decide, by decide, by decide, ?_⟩
  exact C10_only_read_fields_matter sampleEnv otherOldEnv freshWorld .gcold oldReport
    otherOldReport none none oldLine otherOldLine rfl rfl rfl rfl oldReport_second (by decide)
    (by decide) (by decide) (by
      intro k g h
      simp only [Mode.reads, gcoldReads, List.mem_cons, Prod.mk.injEq, List.not_mem_nil,
        or_false] at h
      rcases h with ⟨rfl, rfl⟩ | ⟨rfl, rfl⟩ <;> decide)

end Jstat
